import Mathlib

/-!
Verification of the doctor subsystem of npm-check-updates
(src/lib/doctor.ts). The doctor session is embedded as a pure function
over the configured options, an environment giving the outcome of every
external process invocation (installs, tests, prepare hooks, the internal
ncu run), and a world consisting of the package.json and lock file on
disk. The session yields a final result together with a trace of events,
each paired with the world as it stands immediately after the event.
-/

namespace Ncu

/-- Package manager selection, npm or yarn, from options.packageManager. -/
inductive PM
  | npm
  | yarn
deriving DecidableEq, Repr

/-- Parsed view of a package.json file: whether the scripts section has a
test entry and a prepare entry, and the dependency specifiers of all
dependency sections merged, as a name to specifier association list. -/
structure PkgFile where
  scriptsTest : Bool
  scriptsPrepare : Bool
  deps : List (String × String)
deriving DecidableEq, Repr

/-- Doctor relevant options: the package manager, the optional custom test
and install commands, and whether packageData or packageFile were
supplied on the command line. -/
structure Options where
  packageManager : PM
  doctorTest : Option String
  doctorInstall : Option String
  hasPackageData : Bool
  hasPackageFile : Bool
deriving DecidableEq, Repr

/-- Working tree as the doctor session sees it: the package.json file
(none when missing or unparseable) and the lock file (none when absent). -/
structure World where
  packageJson : Option PkgFile
  lockFile : Option String
deriving DecidableEq, Repr

/-- Behaviour of the external collaborators: the upgrade map returned by
the internal ncu run, the outcome of each full install identified by call
site, the outcome of each test run identified by call site or dependency
name, and the outcome of each single dependency install and prepare hook
identified by dependency name. A lock field of some content means that a
successful install rewrote the lock file to that content; none means the
install left the lock file untouched. -/
structure Env where
  upgrades : List (String × String)
  baselineInstallOk : Bool
  baselineInstallLock : Option String
  allInstallOk : Bool
  allInstallLock : Option String
  reinstallOk : Bool
  reinstallLock : Option String
  finalInstallOk : Bool
  finalInstallLock : Option String
  baselineTestOk : Bool
  allTestOk : Bool
  singleInstallOk : String → Bool
  singleInstallLock : String → Option String
  depTestOk : String → Bool
  prepareOk : String → Bool

/-- Call sites of the four full installs run through runInstall. -/
inductive Site
  | baseline
  | allUpgrades
  | reinstall
  | final
deriving DecidableEq, Repr

/-- Observable actions of a doctor session. Reads of the manifest and lock
file, full installs and test runs by call site, the internal ncu run, file
writes and the lock file removal performed by the session itself, and the
per dependency install, prepare and test actions of the bisection loop. -/
inductive Event
  | readManifest
  | install (site : Site) (ok : Bool)
  | readLockSnapshot (found : Bool)
  | test (site : Site) (ok : Bool)
  | ncuRun
  | writeManifest (pkg : PkgFile)
  | writeLock (content : String)
  | deleteLock
  | singleInstall (args : List String) (ok : Bool)
  | prepare (name : String) (ok : Bool)
  | depTest (name : String) (ok : Bool)
  | readLockLoop (name : String) (found : Bool)
deriving DecidableEq, Repr

/-- Outcome of a doctor session. The three exits of loadPackageFile and
the baseline phase, the trivial exit when nothing is upgradable, wholesale
acceptance, the fatal reinstall error after rollback, completion of the
bisection loop, and failure of the final install. -/
inductive DoctorResult
  | validationExit (msg : String)
  | baselineInstallError
  | baselineTestExit
  | upToDate
  | verifiedAll
  | reinstallFatal (msg : String)
  | bisectionDone
  | finalInstallFatal
deriving DecidableEq, Repr

/-- Session state: the current working tree plus the trace of events so
far, each event paired with the world immediately after it. -/
structure St where
  world : World
  trace : List (Event × World)
deriving Repr

/-- Initial state over a given working tree. -/
def St.init (w : World) : St := { world := w, trace := [] }

/-- Append one event, recording the current world next to it. -/
def emit (e : Event) (st : St) : St :=
  { st with trace := st.trace ++ [(e, st.world)] }

/-- Projection of a trace to its events. -/
def events (st : St) : List Event := st.trace.map Prod.fst

/-- Apply the lock file effect of a successful install. -/
def applyLockEffect (eff : Option String) (st : St) : St :=
  match eff with
  | none => st
  | some l => { st with world := { st.world with lockFile := some l } }

/-- Run one full install at the given call site: on success the package
manager may rewrite the lock file, then the install event is recorded. -/
def installEff (site : Site) (ok : Bool) (eff : Option String) (st : St) : St :=
  emit (.install site ok) (if ok then applyLockEffect eff st else st)

/-- Write the package.json file. -/
def writeManifestFile (pkg : PkgFile) (st : St) : St :=
  emit (.writeManifest pkg) { st with world := { st.world with packageJson := some pkg } }

/-- Write the lock file. -/
def writeLockFile (content : String) (st : St) : St :=
  emit (.writeLock content) { st with world := { st.world with lockFile := some content } }

/-- Remove the lock file, mirroring the rimraf call. -/
def deleteLockFile (st : St) : St :=
  emit .deleteLock { st with world := { st.world with lockFile := none } }

/-- Content of the lock file as the snapshot read sees it: the read of a
missing file throws and leaves the snapshot as the empty string. -/
def lockContentOrEmpty : Option String → String
  | some l => l
  | none => ""

/-- Message printed when packageData or packageFile are combined with
doctor mode. -/
def noDoctorFilesMsg : String :=
  "--packageData and --packageFile are not allowed with --doctor. You must execute ncu --doctor in a directory with a package file so it can install dependencies and test them."

/-- Message printed when package.json is missing or unparseable. -/
def missingPackageMsg : String := "Missing or invalid package.json"

/-- Message printed when neither a test script nor a custom doctorTest
command is available. -/
def noTestScriptMsg : String :=
  "No npm test script defined. You must define a test script in the scripts section of your package.json to use --doctor."

/-- Load and validate the package file, mirroring loadPackageFile of
src/lib/doctor.ts lines 37 to 66: reject packageData and packageFile,
reject a missing or unparseable package.json, and reject a package
without a test script unless doctorTest is given. Each console.error plus
process.exit 1 pair is an error result. -/
def loadPackageFile (opts : Options) (w : World) : Except String PkgFile :=
  if opts.hasPackageData || opts.hasPackageFile then .error noDoctorFilesMsg
  else
    match w.packageJson with
    | none => .error missingPackageMsg
    | some pkg =>
      if opts.doctorTest.isNone && !pkg.scriptsTest then .error noTestScriptMsg
      else .ok pkg

/-- Update of one dependency entry of the dependency list: every entry
with the given name receives the new specifier, all others are kept. -/
def upgradeDeps : List (String × String) → String → String → List (String × String)
  | [], _, _ => []
  | (k, s) :: rest, name, version =>
    (k, if k = name then version else s) :: upgradeDeps rest name version

/-- Modelled from the spec: upgradePackageData of src/lib/upgradePackageData
is not under src. Per the spec, the manifest collaborator treats the file
as a key value structure of dependency declarations, and upgrading one
dependency replaces its current specifier with the upgraded one while
leaving every other part of the file unchanged. -/
def upgradePackageData (pkg : PkgFile) (name version : String) : PkgFile :=
  { pkg with deps := upgradeDeps pkg.deps name version }

/-- Apply a whole upgrade map to a manifest, one dependency at a time. -/
def applyUpgrades : PkgFile → List (String × String) → PkgFile
  | pkg, [] => pkg
  | pkg, (n, v) :: rest => applyUpgrades (upgradePackageData pkg n v) rest

/-- Modelled from the spec: the run collaborator (the internal normal mode
ncu run of line 143, whose implementation is not under src) upgrades the
dependencies, writing the fully upgraded manifest back to package.json,
and returns the upgrade map. -/
def ncuWrite (pkg : PkgFile) (env : Env) (st : St) : St :=
  emit .ncuRun
    { st with world := { st.world with packageJson := some (applyUpgrades pkg env.upgrades) } }

/-- Name of the package manager binary. -/
def pmName : PM → String
  | .npm => "npm"
  | .yarn => "yarn"

/-- Install command named by the fatal reinstall diagnostic, mirroring
line 198 of src/lib/doctor.ts. -/
def installCommand (opts : Options) : String := pmName opts.packageManager ++ " install"

/-- Leading part of the fatal reinstall diagnostic. -/
def reinstallMsgA : String :=
  "Error: Doctor mode was about to test individual upgrades, but "

/-- Trailing part of the fatal reinstall diagnostic. -/
def reinstallMsgB : String :=
  " failed after rolling back to your existing package and lock files. This is unexpected since the initial install before any upgrades succeeded. Either npm failed to revert a partial install, or failed anomalously on the second run. Please check your internet connection and retry. If doctor mode fails consistently, report a bug with your complete list of dependency versions at https://github.com/raineorshine/npm-check-updates/issues."

/-- Diagnostic of the error thrown when the baseline reinstall after
rollback fails, lines 198 to 203 of src/lib/doctor.ts. -/
def reinstallFatalMessage (opts : Options) : String :=
  reinstallMsgA ++ installCommand opts ++ reinstallMsgB

/-- Diagnostic printed for an ordinary test failure, line 177. -/
def testsFailedDiagnostic : String := "Tests failed"

/-- Arguments of the single dependency install of lines 212 to 216:
yarn add for yarn, npm install with the no save flag otherwise, followed
by the name at version specifier. -/
def singleInstallArgs (opts : Options) (name version : String) : List String :=
  (if opts.packageManager = PM.yarn then ["add"] else ["install", "--no-save"]) ++
    [name ++ "@" ++ version]

/-- Recovery of a failing bisection step, lines 243 to 249: restore the
last good lock file, and for yarn, which has no no save option, restore
package.json from the last good manifest. -/
def failRestore (opts : Options) (lastPkg : PkgFile) (lockVar : String) (st : St) : St :=
  let st1 := writeLockFile lockVar st
  if opts.packageManager = PM.yarn then writeManifestFile lastPkg st1 else st1

/-- Body of the bisection loop, lines 209 to 251: install the single
dependency without saving, run the prepare script manually when the
package defines one, run the tests, extend the last good manifest with
this upgrade and capture the lock file; on any failure restore the last
good lock file and, for yarn, the last good manifest. A failing read of
the lock file after a passing test lands in the same catch, after the
last good manifest was already extended. -/
def bisectStep (opts : Options) (pkg : PkgFile) (env : Env) (name version : String)
    (lastPkg : PkgFile) (lockVar : String) (st : St) : PkgFile × String × St :=
  let okI := env.singleInstallOk name
  let st1 := emit (.singleInstall (singleInstallArgs opts name version) okI)
    (if okI then applyLockEffect (env.singleInstallLock name) st else st)
  if !okI then
    (lastPkg, lockVar, failRestore opts lastPkg lockVar st1)
  else
    let st2 := if pkg.scriptsPrepare then emit (.prepare name (env.prepareOk name)) st1 else st1
    if pkg.scriptsPrepare && !env.prepareOk name then
      (lastPkg, lockVar, failRestore opts lastPkg lockVar st2)
    else
      let okT := env.depTestOk name
      let st3 := emit (.depTest name okT) st2
      if !okT then
        (lastPkg, lockVar, failRestore opts lastPkg lockVar st3)
      else
        let lastPkg2 := upgradePackageData lastPkg name version
        match st3.world.lockFile with
        | some l => (lastPkg2, l, emit (.readLockLoop name true) st3)
        | none =>
          (lastPkg2, lockVar,
            failRestore opts lastPkg2 lockVar (emit (.readLockLoop name false) st3))

/-- Bisection loop over the upgrade map, in map order, threading the last
good manifest, the last good lock content and the session state. -/
def bisectLoop (opts : Options) (pkg : PkgFile) (env : Env) :
    List (String × String) → PkgFile → String → St → PkgFile × String × St
  | [], lastPkg, lockVar, st => (lastPkg, lockVar, st)
  | (n, v) :: rest, lastPkg, lockVar, st =>
    let r := bisectStep opts pkg env n v lastPkg lockVar st
    bisectLoop opts pkg env rest r.1 r.2.1 r.2.2

/-- End of the catch block, lines 207 to 261: run the bisection loop, then
persist the accumulated manifest exactly when it differs from the
baseline, then reinstall from the persisted or restored files. -/
def doctorAfterRollback (opts : Options) (pkg : PkgFile) (env : Env) (snap : String)
    (st : St) : DoctorResult × St :=
  let r := bisectLoop opts pkg env env.upgrades pkg snap st
  let st1 := if r.1 = pkg then r.2.2 else writeManifestFile r.1 r.2.2
  let st2 := installEff .final env.finalInstallOk env.finalInstallLock st1
  (if env.finalInstallOk then .bisectionDone else .finalInstallFatal, st2)

/-- Restore of the baseline files at the head of the catch block, lines
180 to 187: write the snapshot package.json back, and write the snapshot
lock file back or remove the lock file when the baseline had none. -/
def rollbackRestore (pkg : PkgFile) (snap : String) (st : St) : St :=
  let st1 := writeManifestFile pkg st
  if snap = "" then deleteLockFile st1 else writeLockFile snap st1

/-- Catch block of the all upgrades phase, lines 176 to 261: restore the
baseline package.json, restore the baseline lock file or remove the lock
file when the baseline had none, reinstall the baseline exactly when the
failing phase had a successful install, treating a failing reinstall as a
fatal error, and then run the bisection loop. -/
def doctorCatch (opts : Options) (pkg : PkgFile) (env : Env) (snap : String)
    (installAllSuccess : Bool) (st : St) : DoctorResult × St :=
  let st2 := rollbackRestore pkg snap st
  if installAllSuccess then
    let st3 := installEff .reinstall env.reinstallOk env.reinstallLock st2
    if env.reinstallOk then doctorAfterRollback opts pkg env snap st3
    else (.reinstallFatal (reinstallFatalMessage opts), st3)
  else doctorAfterRollback opts pkg env snap st2

/-- Upgrade phase, lines 130 to 262: internal ncu run, the trivial exit
when nothing is upgradable, the all upgrades install and test, and on
failure the catch block. -/
def doctorUpgradePhase (opts : Options) (pkg : PkgFile) (env : Env) (snap : String)
    (st : St) : DoctorResult × St :=
  let stD := ncuWrite pkg env st
  if env.upgrades.isEmpty then (.upToDate, stD)
  else
    let stE := installEff .allUpgrades env.allInstallOk env.allInstallLock stD
    if env.allInstallOk then
      let stF := emit (.test .allUpgrades env.allTestOk) stE
      if env.allTestOk then (.verifiedAll, stF)
      else doctorCatch opts pkg env snap true stF
    else doctorCatch opts pkg env snap false stE

/-- Main doctor flow after validation, lines 70 to 262: baseline install,
lock file snapshot, baseline test, then the upgrade phase. -/
def doctorMain (opts : Options) (env : Env) (w : World) (pkg : PkgFile) :
    DoctorResult × St :=
  let st := emit .readManifest (St.init w)
  if env.baselineInstallOk then
    let stA := installEff .baseline true env.baselineInstallLock st
    let snap := lockContentOrEmpty stA.world.lockFile
    let stB := emit (.readLockSnapshot stA.world.lockFile.isSome) stA
    let stC := emit (.test .baseline env.baselineTestOk) stB
    if env.baselineTestOk then doctorUpgradePhase opts pkg env snap stC
    else (.baselineTestExit, stC)
  else (.baselineInstallError, installEff .baseline false env.baselineInstallLock st)

/-- Whole doctor session: validation through loadPackageFile, then the
main flow. -/
def doctor (opts : Options) (env : Env) (w : World) : DoctorResult × St :=
  match loadPackageFile opts w with
  | .error msg => (.validationExit msg, St.init w)
  | .ok pkg => doctorMain opts env w pkg

/-- Lookup of the specifier of a dependency in the merged dependency list. -/
def lookupDep : List (String × String) → String → Option String
  | [], _ => none
  | (k, s) :: rest, n => if k = n then some s else lookupDep rest n

/-- Write actions a doctor session itself performs on the working tree. -/
def Event.isSessionWrite : Event → Bool
  | .writeManifest _ => true
  | .writeLock _ => true
  | .deleteLock => true
  | _ => false

/-- Bisection step actions. -/
def Event.isSingleInstall : Event → Bool
  | .singleInstall _ _ => true
  | _ => false

/-- Lock file state after the baseline install. -/
def lockAfterBaseline (env : Env) (w : World) : Option String :=
  match env.baselineInstallLock with
  | some l => some l
  | none => w.lockFile

/-- Lock file state after a successful all upgrades install. -/
def lockAfterAll (env : Env) (w : World) : Option String :=
  match env.allInstallLock with
  | some l => some l
  | none => lockAfterBaseline env w

/-- World after the baseline install. -/
def wBase (env : Env) (w : World) : World :=
  ⟨w.packageJson, lockAfterBaseline env w⟩

/-- World after the internal ncu run wrote the upgraded manifest. -/
def wNcu (env : Env) (w : World) (pkg : PkgFile) : World :=
  ⟨some (applyUpgrades pkg env.upgrades), lockAfterBaseline env w⟩

/-- World after a successful all upgrades install. -/
def wAll (env : Env) (w : World) (pkg : PkgFile) : World :=
  ⟨some (applyUpgrades pkg env.upgrades), lockAfterAll env w⟩

/-- Trace of the baseline phase, through the baseline test. -/
def baseTrace (env : Env) (w : World) : List (Event × World) :=
  [(.readManifest, w),
   (.install .baseline true, wBase env w),
   (.readLockSnapshot (lockAfterBaseline env w).isSome, wBase env w),
   (.test .baseline env.baselineTestOk, wBase env w)]

/-- State at entry of the catch block when the all upgrades test failed. -/
def stCatchTestFail (env : Env) (w : World) (pkg : PkgFile) : St :=
  { world := wAll env w pkg,
    trace := baseTrace env w ++
      [(.ncuRun, wNcu env w pkg),
       (.install .allUpgrades true, wAll env w pkg),
       (.test .allUpgrades false, wAll env w pkg)] }

/-- State at entry of the catch block when the all upgrades install
failed. -/
def stCatchInstallFail (env : Env) (w : World) (pkg : PkgFile) : St :=
  { world := wNcu env w pkg,
    trace := baseTrace env w ++
      [(.ncuRun, wNcu env w pkg),
       (.install .allUpgrades false, wNcu env w pkg)] }

/-- State at the successful end of the all upgrades phase. -/
def stVerifiedAll (env : Env) (w : World) (pkg : PkgFile) : St :=
  { world := wAll env w pkg,
    trace := baseTrace env w ++
      [(.ncuRun, wNcu env w pkg),
       (.install .allUpgrades true, wAll env w pkg),
       (.test .allUpgrades true, wAll env w pkg)] }

theorem doctor_eq_main (opts : Options) (env : Env) (w : World) (pkg : PkgFile)
    (hLoad : loadPackageFile opts w = .ok pkg) :
    doctor opts env w = doctorMain opts env w pkg := by
  unfold doctor
  rw [hLoad]

theorem doctorMain_verifiedAll (opts : Options) (env : Env) (w : World) (pkg : PkgFile)
    (hBI : env.baselineInstallOk = true) (hBT : env.baselineTestOk = true)
    (hUp : env.upgrades ≠ []) (hAI : env.allInstallOk = true)
    (hAT : env.allTestOk = true) :
    doctorMain opts env w pkg = (.verifiedAll, stVerifiedAll env w pkg) := by
  obtain ⟨u, us, hUps⟩ := List.exists_cons_of_ne_nil hUp
  unfold doctorMain doctorUpgradePhase installEff ncuWrite
  rw [hBI, hBT, hAI, hAT, hUps]
  simp only [if_true, List.isEmpty_cons, Bool.false_eq_true, if_false]
  cases hb : env.baselineInstallLock with
  | none =>
    cases ha : env.allInstallLock with
    | none =>
      simp [applyLockEffect, emit, St.init, stVerifiedAll, baseTrace, wBase, wNcu, wAll,
        lockAfterBaseline, lockAfterAll, hb, ha, hBT, hUps]
    | some l =>
      simp [applyLockEffect, emit, St.init, stVerifiedAll, baseTrace, wBase, wNcu, wAll,
        lockAfterBaseline, lockAfterAll, hb, ha, hBT, hUps]
  | some l0 =>
    cases ha : env.allInstallLock with
    | none =>
      simp [applyLockEffect, emit, St.init, stVerifiedAll, baseTrace, wBase, wNcu, wAll,
        lockAfterBaseline, lockAfterAll, hb, ha, hBT, hUps]
    | some l =>
      simp [applyLockEffect, emit, St.init, stVerifiedAll, baseTrace, wBase, wNcu, wAll,
        lockAfterBaseline, lockAfterAll, hb, ha, hBT, hUps]

theorem doctorMain_catch_testfail (opts : Options) (env : Env) (w : World) (pkg : PkgFile)
    (hBI : env.baselineInstallOk = true) (hBT : env.baselineTestOk = true)
    (hUp : env.upgrades ≠ []) (hAI : env.allInstallOk = true)
    (hAT : env.allTestOk = false) :
    doctorMain opts env w pkg =
      doctorCatch opts pkg env (lockContentOrEmpty (lockAfterBaseline env w)) true
        (stCatchTestFail env w pkg) := by
  obtain ⟨u, us, hUps⟩ := List.exists_cons_of_ne_nil hUp
  unfold doctorMain doctorUpgradePhase installEff ncuWrite
  rw [hBI, hBT, hAI, hAT, hUps]
  simp only [if_true, List.isEmpty_cons, Bool.false_eq_true, if_false]
  cases hb : env.baselineInstallLock with
  | none =>
    cases ha : env.allInstallLock with
    | none =>
      simp [applyLockEffect, emit, St.init, stCatchTestFail, baseTrace, wBase, wNcu, wAll,
        lockAfterBaseline, lockAfterAll, hb, ha, hBT, hUps]
    | some l =>
      simp [applyLockEffect, emit, St.init, stCatchTestFail, baseTrace, wBase, wNcu, wAll,
        lockAfterBaseline, lockAfterAll, hb, ha, hBT, hUps]
  | some l0 =>
    cases ha : env.allInstallLock with
    | none =>
      simp [applyLockEffect, emit, St.init, stCatchTestFail, baseTrace, wBase, wNcu, wAll,
        lockAfterBaseline, lockAfterAll, hb, ha, hBT, hUps]
    | some l =>
      simp [applyLockEffect, emit, St.init, stCatchTestFail, baseTrace, wBase, wNcu, wAll,
        lockAfterBaseline, lockAfterAll, hb, ha, hBT, hUps]

theorem doctorMain_catch_installfail (opts : Options) (env : Env) (w : World) (pkg : PkgFile)
    (hBI : env.baselineInstallOk = true) (hBT : env.baselineTestOk = true)
    (hUp : env.upgrades ≠ []) (hAI : env.allInstallOk = false) :
    doctorMain opts env w pkg =
      doctorCatch opts pkg env (lockContentOrEmpty (lockAfterBaseline env w)) false
        (stCatchInstallFail env w pkg) := by
  obtain ⟨u, us, hUps⟩ := List.exists_cons_of_ne_nil hUp
  unfold doctorMain doctorUpgradePhase installEff ncuWrite
  rw [hBI, hBT, hAI, hUps]
  simp only [if_true, List.isEmpty_cons, Bool.false_eq_true, if_false]
  cases hb : env.baselineInstallLock with
  | none =>
    simp [applyLockEffect, emit, St.init, stCatchInstallFail, baseTrace, wBase, wNcu,
      lockAfterBaseline, hb, hBT, hUps]
  | some l0 =>
    simp [applyLockEffect, emit, St.init, stCatchInstallFail, baseTrace, wBase, wNcu,
      lockAfterBaseline, hb, hBT, hUps]

/-- Trace extension of the recovery of a failing bisection step. -/
def failTraceEvents (opts : Options) (lastPkg : PkgFile) (lockVar : String)
    (w : World) : List (Event × World) :=
  (Event.writeLock lockVar, { w with lockFile := some lockVar }) ::
    (if opts.packageManager = PM.yarn
     then [(Event.writeManifest lastPkg, ⟨some lastPkg, some lockVar⟩)]
     else [])

theorem failRestore_eq (opts : Options) (lastPkg : PkgFile) (lockVar : String) (st : St) :
    failRestore opts lastPkg lockVar st =
      { world := if opts.packageManager = PM.yarn
                 then ⟨some lastPkg, some lockVar⟩
                 else { st.world with lockFile := some lockVar },
        trace := st.trace ++ failTraceEvents opts lastPkg lockVar st.world } := by
  by_cases hy : opts.packageManager = PM.yarn
  · simp [failRestore, writeLockFile, writeManifestFile, emit, failTraceEvents, hy]
  · simp [failRestore, writeLockFile, writeManifestFile, emit, failTraceEvents, hy]

/-- Trace extension of a fully successful bisection step. -/
def stepSuccTrace (opts : Options) (pkg : PkgFile) (name version : String)
    (w : World) (l : String) : List (Event × World) :=
  (Event.singleInstall (singleInstallArgs opts name version) true,
      { w with lockFile := some l }) ::
    ((if pkg.scriptsPrepare then [(Event.prepare name true, { w with lockFile := some l })]
      else []) ++
     [(Event.depTest name true, { w with lockFile := some l }),
      (Event.readLockLoop name true, { w with lockFile := some l })])

theorem bisectStep_success (opts : Options) (pkg : PkgFile) (env : Env)
    (name version : String) (lastPkg : PkgFile) (lockVar : String) (st : St)
    (hI : env.singleInstallOk name = true)
    (hL : env.singleInstallLock name = some l)
    (hP : pkg.scriptsPrepare = true → env.prepareOk name = true)
    (hT : env.depTestOk name = true) :
    bisectStep opts pkg env name version lastPkg lockVar st =
      (upgradePackageData lastPkg name version, l,
        { world := { st.world with lockFile := some l },
          trace := st.trace ++ stepSuccTrace opts pkg name version st.world l }) := by
  by_cases hp : pkg.scriptsPrepare = true
  · simp [bisectStep, hI, hL, hT, hp, hP hp, applyLockEffect, emit, stepSuccTrace]
  · simp only [Bool.not_eq_true] at hp
    simp [bisectStep, hI, hL, hT, hp, applyLockEffect, emit, stepSuccTrace]

theorem bisectStep_install_fail (opts : Options) (pkg : PkgFile) (env : Env)
    (name version : String) (lastPkg : PkgFile) (lockVar : String) (st : St)
    (hI : env.singleInstallOk name = false) :
    bisectStep opts pkg env name version lastPkg lockVar st =
      (lastPkg, lockVar,
        failRestore opts lastPkg lockVar
          (emit (.singleInstall (singleInstallArgs opts name version) false) st)) := by
  simp [bisectStep, hI]

theorem bisectStep_prepare_fail (opts : Options) (pkg : PkgFile) (env : Env)
    (name version : String) (lastPkg : PkgFile) (lockVar : String) (st : St)
    (hI : env.singleInstallOk name = true)
    (hp : pkg.scriptsPrepare = true) (hP : env.prepareOk name = false) :
    bisectStep opts pkg env name version lastPkg lockVar st =
      (lastPkg, lockVar,
        failRestore opts lastPkg lockVar
          (emit (.prepare name false)
            (emit (.singleInstall (singleInstallArgs opts name version) true)
              (applyLockEffect (env.singleInstallLock name) st)))) := by
  simp [bisectStep, hI, hp, hP]

theorem bisectStep_test_fail (opts : Options) (pkg : PkgFile) (env : Env)
    (name version : String) (lastPkg : PkgFile) (lockVar : String) (st : St)
    (hI : env.singleInstallOk name = true)
    (hP : pkg.scriptsPrepare = true → env.prepareOk name = true)
    (hT : env.depTestOk name = false) :
    bisectStep opts pkg env name version lastPkg lockVar st =
      (lastPkg, lockVar,
        failRestore opts lastPkg lockVar
          (emit (.depTest name false)
            (if pkg.scriptsPrepare
             then emit (.prepare name true)
               (emit (.singleInstall (singleInstallArgs opts name version) true)
                 (applyLockEffect (env.singleInstallLock name) st))
             else emit (.singleInstall (singleInstallArgs opts name version) true)
               (applyLockEffect (env.singleInstallLock name) st)))) := by
  by_cases hp : pkg.scriptsPrepare = true
  · simp [bisectStep, hI, hT, hp, hP hp]
  · simp only [Bool.not_eq_true] at hp
    simp [bisectStep, hI, hT, hp]

theorem bisectLoop_cons (opts : Options) (pkg : PkgFile) (env : Env)
    (n v : String) (rest : List (String × String)) (lastPkg : PkgFile)
    (lockVar : String) (st : St) :
    bisectLoop opts pkg env ((n, v) :: rest) lastPkg lockVar st =
      (let r := bisectStep opts pkg env n v lastPkg lockVar st
       bisectLoop opts pkg env rest r.1 r.2.1 r.2.2) := rfl

theorem lookupDep_upgradeDeps_self (d : List (String × String)) (n v : String) :
    lookupDep (upgradeDeps d n v) n = (lookupDep d n).map fun _ => v := by
  induction d with
  | nil => rfl
  | cons p rest ih =>
    obtain ⟨k, s⟩ := p
    by_cases hk : k = n
    · simp [upgradeDeps, lookupDep, hk, ih]
    · simp [upgradeDeps, lookupDep, hk, ih]

theorem lookupDep_upgradeDeps_other (d : List (String × String)) (n v m : String)
    (h : m ≠ n) :
    lookupDep (upgradeDeps d n v) m = lookupDep d m := by
  induction d with
  | nil => rfl
  | cons p rest ih =>
    obtain ⟨k, s⟩ := p
    by_cases hm : k = m
    · subst hm
      simp [upgradeDeps, lookupDep, h]
    · simp [upgradeDeps, lookupDep, hm, ih]

/-- Trace of the second state extends the trace of the first. -/
def TraceExtends (a b : St) : Prop := ∃ ext, b.trace = a.trace ++ ext

theorem traceExtends_refl (st : St) : TraceExtends st st :=
  ⟨[], (List.append_nil _).symm⟩

theorem traceExtends_trans {a b c : St} (h1 : TraceExtends a b) (h2 : TraceExtends b c) :
    TraceExtends a c := by
  obtain ⟨e1, he1⟩ := h1
  obtain ⟨e2, he2⟩ := h2
  exact ⟨e1 ++ e2, by rw [he2, he1, List.append_assoc]⟩

theorem emit_trace (e : Event) (st : St) :
    (emit e st).trace = st.trace ++ [(e, st.world)] := rfl

theorem applyLockEffect_trace (eff : Option String) (st : St) :
    (applyLockEffect eff st).trace = st.trace := by
  cases eff <;> rfl

theorem traceExtends_emit (e : Event) (st : St) : TraceExtends st (emit e st) :=
  ⟨[(e, st.world)], rfl⟩

theorem traceExtends_applyLockEffect (eff : Option String) (st : St) :
    TraceExtends st (applyLockEffect eff st) :=
  ⟨[], by rw [applyLockEffect_trace, List.append_nil]⟩

theorem traceExtends_installEff (site : Site) (ok : Bool) (eff : Option String) (st : St) :
    TraceExtends st (installEff site ok eff st) := by
  cases eff <;> cases ok <;> exact ⟨_, rfl⟩

theorem traceExtends_writeManifestFile (pkg : PkgFile) (st : St) :
    TraceExtends st (writeManifestFile pkg st) := ⟨_, rfl⟩

theorem traceExtends_writeLockFile (content : String) (st : St) :
    TraceExtends st (writeLockFile content st) := ⟨_, rfl⟩

theorem traceExtends_deleteLockFile (st : St) :
    TraceExtends st (deleteLockFile st) := ⟨_, rfl⟩

theorem traceExtends_ncuWrite (pkg : PkgFile) (env : Env) (st : St) :
    TraceExtends st (ncuWrite pkg env st) := ⟨_, rfl⟩

theorem traceExtends_failRestore (opts : Options) (lastPkg : PkgFile)
    (lockVar : String) (st : St) :
    TraceExtends st (failRestore opts lastPkg lockVar st) := by
  rw [failRestore_eq]
  exact ⟨_, rfl⟩

/-- Trace extension of the baseline file restore of the catch block. -/
def rollbackTraceEvents (pkg : PkgFile) (snap : String) (w : World) :
    List (Event × World) :=
  (Event.writeManifest pkg, { w with packageJson := some pkg }) ::
    (if snap = "" then [(Event.deleteLock, ⟨some pkg, none⟩)]
     else [(Event.writeLock snap, ⟨some pkg, some snap⟩)])

theorem rollbackRestore_trace (pkg : PkgFile) (snap : String) (st : St) :
    (rollbackRestore pkg snap st).trace =
      st.trace ++ rollbackTraceEvents pkg snap st.world := by
  by_cases hs : snap = "" <;>
    simp [rollbackRestore, rollbackTraceEvents, writeManifestFile, writeLockFile,
      deleteLockFile, emit, hs]

theorem rollbackRestore_world (pkg : PkgFile) (snap : String) (st : St) :
    (rollbackRestore pkg snap st).world =
      ⟨some pkg, if snap = "" then none else some snap⟩ := by
  by_cases hs : snap = "" <;>
    simp [rollbackRestore, writeManifestFile, writeLockFile, deleteLockFile, emit, hs]

theorem traceExtends_rollbackRestore (pkg : PkgFile) (snap : String) (st : St) :
    TraceExtends st (rollbackRestore pkg snap st) :=
  ⟨_, rollbackRestore_trace pkg snap st⟩

theorem bisectStep_success_keep (opts : Options) (pkg : PkgFile) (env : Env)
    (name version : String) (lastPkg : PkgFile) (lockVar : String) (st : St)
    (hI : env.singleInstallOk name = true)
    (hl : env.singleInstallLock name = none)
    (hw : st.world.lockFile = some l2)
    (hP : pkg.scriptsPrepare = true → env.prepareOk name = true)
    (hT : env.depTestOk name = true) :
    bisectStep opts pkg env name version lastPkg lockVar st =
      (upgradePackageData lastPkg name version, l2,
        emit (.readLockLoop name true) (emit (.depTest name true)
          (if pkg.scriptsPrepare
           then emit (.prepare name true)
             (emit (.singleInstall (singleInstallArgs opts name version) true) st)
           else emit (.singleInstall (singleInstallArgs opts name version) true) st))) := by
  by_cases hp : pkg.scriptsPrepare = true
  · simp [bisectStep, hI, hl, hT, hp, hP hp, applyLockEffect, emit, hw]
  · simp only [Bool.not_eq_true] at hp
    simp [bisectStep, hI, hl, hT, hp, applyLockEffect, emit, hw]

theorem bisectStep_readfail (opts : Options) (pkg : PkgFile) (env : Env)
    (name version : String) (lastPkg : PkgFile) (lockVar : String) (st : St)
    (hI : env.singleInstallOk name = true)
    (hl : env.singleInstallLock name = none)
    (hw : st.world.lockFile = none)
    (hP : pkg.scriptsPrepare = true → env.prepareOk name = true)
    (hT : env.depTestOk name = true) :
    bisectStep opts pkg env name version lastPkg lockVar st =
      (upgradePackageData lastPkg name version, lockVar,
        failRestore opts (upgradePackageData lastPkg name version) lockVar
          (emit (.readLockLoop name false) (emit (.depTest name true)
            (if pkg.scriptsPrepare
             then emit (.prepare name true)
               (emit (.singleInstall (singleInstallArgs opts name version) true) st)
             else emit (.singleInstall (singleInstallArgs opts name version) true) st)))) := by
  by_cases hp : pkg.scriptsPrepare = true
  · simp [bisectStep, hI, hl, hT, hp, hP hp, applyLockEffect, emit, hw]
  · simp only [Bool.not_eq_true] at hp
    simp [bisectStep, hI, hl, hT, hp, applyLockEffect, emit, hw]

theorem traceExtends_bisectStep (opts : Options) (pkg : PkgFile) (env : Env)
    (n v : String) (lastPkg : PkgFile) (lockVar : String) (st : St) :
    TraceExtends st (bisectStep opts pkg env n v lastPkg lockVar st).2.2 := by
  by_cases hI : env.singleInstallOk n = true
  · have hPor : pkg.scriptsPrepare = true → env.prepareOk n = true ∨ env.prepareOk n = false :=
      fun _ => by cases env.prepareOk n <;> simp
    by_cases hpf : pkg.scriptsPrepare = true ∧ env.prepareOk n = false
    · rw [bisectStep_prepare_fail opts pkg env n v lastPkg lockVar st hI hpf.1 hpf.2]
      exact traceExtends_trans (traceExtends_applyLockEffect _ _)
        (traceExtends_trans (traceExtends_emit _ _)
          (traceExtends_trans (traceExtends_emit _ _) (traceExtends_failRestore _ _ _ _)))
    · have hP : pkg.scriptsPrepare = true → env.prepareOk n = true := by
        intro hp
        rcases hPor hp with h | h
        · exact h
        · exact absurd ⟨hp, h⟩ hpf
      by_cases hT : env.depTestOk n = true
      · cases hl : env.singleInstallLock n with
        | some l =>
          rw [bisectStep_success opts pkg env n v lastPkg lockVar st hI hl hP hT]
          exact ⟨_, rfl⟩
        | none =>
          cases hw : st.world.lockFile with
          | some l2 =>
            rw [bisectStep_success_keep opts pkg env n v lastPkg lockVar st hI hl hw hP hT]
            by_cases hp : pkg.scriptsPrepare = true
            · simp only [hp, if_true, reduceIte]
              exact traceExtends_trans (traceExtends_emit _ _)
                (traceExtends_trans (traceExtends_emit _ _)
                  (traceExtends_trans (traceExtends_emit _ _) (traceExtends_emit _ _)))
            · simp only [Bool.not_eq_true] at hp
              simp only [hp, Bool.false_eq_true, if_false, reduceIte]
              exact traceExtends_trans (traceExtends_emit _ _)
                (traceExtends_trans (traceExtends_emit _ _) (traceExtends_emit _ _))
          | none =>
            rw [bisectStep_readfail opts pkg env n v lastPkg lockVar st hI hl hw hP hT]
            by_cases hp : pkg.scriptsPrepare = true
            · simp only [hp, if_true, reduceIte]
              exact traceExtends_trans (traceExtends_emit _ _)
                (traceExtends_trans (traceExtends_emit _ _)
                  (traceExtends_trans (traceExtends_emit _ _)
                    (traceExtends_trans (traceExtends_emit _ _)
                      (traceExtends_failRestore _ _ _ _))))
            · simp only [Bool.not_eq_true] at hp
              simp only [hp, Bool.false_eq_true, if_false, reduceIte]
              exact traceExtends_trans (traceExtends_emit _ _)
                (traceExtends_trans (traceExtends_emit _ _)
                  (traceExtends_trans (traceExtends_emit _ _)
                    (traceExtends_failRestore _ _ _ _)))
      · rw [bisectStep_test_fail opts pkg env n v lastPkg lockVar st hI hP
          (by revert hT; cases env.depTestOk n <;> simp)]
        by_cases hp : pkg.scriptsPrepare = true
        · simp only [hp, if_true, reduceIte]
          exact traceExtends_trans (traceExtends_applyLockEffect _ _)
            (traceExtends_trans (traceExtends_emit _ _)
              (traceExtends_trans (traceExtends_emit _ _)
                (traceExtends_trans (traceExtends_emit _ _)
                  (traceExtends_failRestore _ _ _ _))))
        · simp only [Bool.not_eq_true] at hp
          simp only [hp, Bool.false_eq_true, if_false, reduceIte]
          exact traceExtends_trans (traceExtends_applyLockEffect _ _)
            (traceExtends_trans (traceExtends_emit _ _)
              (traceExtends_trans (traceExtends_emit _ _)
                (traceExtends_failRestore _ _ _ _)))
  · rw [bisectStep_install_fail opts pkg env n v lastPkg lockVar st
      (by revert hI; cases env.singleInstallOk n <;> simp)]
    exact traceExtends_trans (traceExtends_emit _ _) (traceExtends_failRestore _ _ _ _)

theorem traceExtends_bisectLoop (opts : Options) (pkg : PkgFile) (env : Env)
    (ups : List (String × String)) :
    ∀ (lastPkg : PkgFile) (lockVar : String) (st : St),
      TraceExtends st (bisectLoop opts pkg env ups lastPkg lockVar st).2.2 := by
  induction ups with
  | nil => exact fun lastPkg lockVar st => traceExtends_refl st
  | cons u rest ih =>
    intro lastPkg lockVar st
    obtain ⟨n, v⟩ := u
    rw [bisectLoop_cons]
    exact traceExtends_trans (traceExtends_bisectStep opts pkg env n v lastPkg lockVar st)
      (ih _ _ _)

theorem traceExtends_doctorAfterRollback (opts : Options) (pkg : PkgFile) (env : Env)
    (snap : String) (st : St) :
    TraceExtends st (doctorAfterRollback opts pkg env snap st).2 := by
  unfold doctorAfterRollback
  by_cases h1 : (bisectLoop opts pkg env env.upgrades pkg snap st).1 = pkg
  · simp only [h1, if_true, reduceIte]
    exact traceExtends_trans (traceExtends_bisectLoop opts pkg env env.upgrades pkg snap st)
      (traceExtends_installEff _ _ _ _)
  · simp only [h1, if_false, reduceIte]
    exact traceExtends_trans (traceExtends_bisectLoop opts pkg env env.upgrades pkg snap st)
      (traceExtends_trans (traceExtends_writeManifestFile _ _) (traceExtends_installEff _ _ _ _))

theorem traceExtends_doctorCatch (opts : Options) (pkg : PkgFile) (env : Env)
    (snap : String) (iAS : Bool) (st : St) :
    TraceExtends st (doctorCatch opts pkg env snap iAS st).2 := by
  unfold doctorCatch
  by_cases hi : iAS = true
  · by_cases hr : env.reinstallOk = true
    · simp only [hi, hr, if_true, reduceIte]
      exact traceExtends_trans (traceExtends_rollbackRestore _ _ _)
        (traceExtends_trans (traceExtends_installEff _ _ _ _)
          (traceExtends_doctorAfterRollback _ _ _ _ _))
    · simp only [hi, hr, if_true, Bool.false_eq_true, if_false, reduceIte]
      exact traceExtends_trans (traceExtends_rollbackRestore _ _ _)
        (traceExtends_installEff _ _ _ _)
  · simp only [hi, Bool.false_eq_true, if_false, reduceIte]
    exact traceExtends_trans (traceExtends_rollbackRestore _ _ _)
      (traceExtends_doctorAfterRollback _ _ _ _ _)

theorem traceExtends_doctorUpgradePhase (opts : Options) (pkg : PkgFile) (env : Env)
    (snap : String) (st : St) :
    TraceExtends st (doctorUpgradePhase opts pkg env snap st).2 := by
  unfold doctorUpgradePhase
  by_cases he : env.upgrades.isEmpty = true
  · simp only [he, if_true, reduceIte]
    exact traceExtends_ncuWrite _ _ _
  · simp only [he, Bool.false_eq_true, if_false, reduceIte]
    by_cases hai : env.allInstallOk = true
    · by_cases hat : env.allTestOk = true
      · simp only [hai, hat, if_true, reduceIte]
        exact traceExtends_trans (traceExtends_ncuWrite _ _ _)
          (traceExtends_trans (traceExtends_installEff _ _ _ _) (traceExtends_emit _ _))
      · simp only [hai, hat, if_true, Bool.false_eq_true, if_false, reduceIte]
        exact traceExtends_trans (traceExtends_ncuWrite _ _ _)
          (traceExtends_trans (traceExtends_installEff _ _ _ _)
            (traceExtends_trans (traceExtends_emit _ _)
              (traceExtends_doctorCatch _ _ _ _ _ _)))
    · simp only [hai, Bool.false_eq_true, if_false, reduceIte]
      exact traceExtends_trans (traceExtends_ncuWrite _ _ _)
        (traceExtends_trans (traceExtends_installEff _ _ _ _)
          (traceExtends_doctorCatch _ _ _ _ _ _))

theorem doctorCatch_reinstall_ok (opts : Options) (pkg : PkgFile) (env : Env)
    (snap : String) (st : St) (hr : env.reinstallOk = true) :
    doctorCatch opts pkg env snap true st =
      doctorAfterRollback opts pkg env snap
        (installEff .reinstall true env.reinstallLock (rollbackRestore pkg snap st)) := by
  simp only [doctorCatch, hr, if_true, reduceIte]

theorem doctorCatch_reinstall_fail (opts : Options) (pkg : PkgFile) (env : Env)
    (snap : String) (st : St) (hr : env.reinstallOk = false) :
    doctorCatch opts pkg env snap true st =
      (.reinstallFatal (reinstallFatalMessage opts),
        installEff .reinstall false env.reinstallLock (rollbackRestore pkg snap st)) := by
  simp only [doctorCatch, hr, Bool.false_eq_true, if_false, if_true, reduceIte]

theorem doctorCatch_no_reinstall (opts : Options) (pkg : PkgFile) (env : Env)
    (snap : String) (st : St) :
    doctorCatch opts pkg env snap false st =
      doctorAfterRollback opts pkg env snap (rollbackRestore pkg snap st) := by
  simp only [doctorCatch, Bool.false_eq_true, if_false, reduceIte]

/-- Concrete package file with three dependencies for witness sessions. -/
def pkgC : PkgFile :=
  { scriptsTest := true, scriptsPrepare := false,
    deps := [("alpha", "1.0.0"), ("beta", "1.0.0"), ("gamma", "1.0.0")] }

/-- Concrete npm options for witness sessions. -/
def optsC : Options :=
  { packageManager := PM.npm, doctorTest := none, doctorInstall := none,
    hasPackageData := false, hasPackageFile := false }

/-- Concrete working tree with a lock file for witness sessions. -/
def worldC : World := { packageJson := some pkgC, lockFile := some "lock0" }

/-- Concrete environment for witness sessions: the all upgrades test
fails, the single upgrade of beta fails, everything else succeeds. -/
def envC : Env :=
  { upgrades := [("alpha", "2.0.0"), ("beta", "2.0.0"), ("gamma", "2.0.0")],
    baselineInstallOk := true, baselineInstallLock := some "lockB",
    allInstallOk := true, allInstallLock := some "lockAll",
    reinstallOk := true, reinstallLock := some "lockB2",
    finalInstallOk := true, finalInstallLock := none,
    baselineTestOk := true, allTestOk := false,
    singleInstallOk := fun n => !(n == "beta"),
    singleInstallLock := fun n => some ("lock-" ++ n),
    depTestOk := fun _ => true,
    prepareOk := fun _ => true }

/-- Environment variant in which all upgraded tests pass. -/
def envC6 : Env := { envC with allTestOk := true }

/-- Environment variant in which the reinstall after rollback fails. -/
def envC3 : Env := { envC with reinstallOk := false }

/-- Options variant that illegally supplies packageData. -/
def optsBadC9 : Options := { optsC with hasPackageData := true }

/-- Working tree without a lock file. -/
def worldNoLock : World := { packageJson := some pkgC, lockFile := none }

/-- Environment variant in which no install creates a lock file except
the all upgrades install. -/
def envC10 : Env := { envC with baselineInstallLock := none }

/-- Claim C9: with no custom test command and no test script, or a
missing or unparseable package.json, or packageData or packageFile
supplied, the session exits fatally during validation, before any
install or test process is spawned and before any file is written: the
result is a validation exit, the trace is empty and the world is the
untouched input. -/
theorem claim_C9 (opts : Options) (env : Env) (w : World)
    (h : opts.hasPackageData = true ∨ opts.hasPackageFile = true ∨ w.packageJson = none ∨
      (opts.doctorTest = none ∧ ∃ p, w.packageJson = some p ∧ p.scriptsTest = false)) :
    ∃ msg, doctor opts env w = (.validationExit msg, St.init w) ∧
      (St.init w).trace = [] ∧ (St.init w).world = w := by
  have herr : ∃ msg, loadPackageFile opts w = .error msg := by
    rcases h with h | h | h | ⟨hdt, p, hp, hts⟩
    · exact ⟨noDoctorFilesMsg, by simp [loadPackageFile, h]⟩
    · exact ⟨noDoctorFilesMsg, by simp [loadPackageFile, h]⟩
    · by_cases hb : (opts.hasPackageData || opts.hasPackageFile) = true
      · exact ⟨noDoctorFilesMsg, by simp [loadPackageFile, hb]⟩
      · exact ⟨missingPackageMsg, by simp [loadPackageFile, hb, h]⟩
    · by_cases hb : (opts.hasPackageData || opts.hasPackageFile) = true
      · exact ⟨noDoctorFilesMsg, by simp [loadPackageFile, hb]⟩
      · exact ⟨noTestScriptMsg, by simp [loadPackageFile, hb, hp, hdt, hts]⟩
  obtain ⟨msg, hm⟩ := herr
  refine ⟨msg, ?_, rfl, rfl⟩
  unfold doctor
  rw [hm]

/-- Witness for claim C9 at a concrete input that supplies packageData. -/
theorem claim_C9_witness :
    ∃ msg, doctor optsBadC9 envC worldC = (.validationExit msg, St.init worldC) ∧
      (St.init worldC).trace = [] ∧ (St.init worldC).world = worldC :=
  claim_C9 optsBadC9 envC worldC (Or.inl rfl)

/-- Claim C6: when the install with all upgrades applied and the
subsequent test run both succeed, the session ends successfully as
verified with no bisection step, the session itself never writes
package.json or the lock file, and the upgraded manifest written by the
internal normal mode run is left in place. -/
theorem claim_C6 (opts : Options) (env : Env) (w : World) (pkg : PkgFile)
    (hLoad : loadPackageFile opts w = .ok pkg)
    (hBI : env.baselineInstallOk = true) (hBT : env.baselineTestOk = true)
    (hUp : env.upgrades ≠ []) (hAI : env.allInstallOk = true)
    (hAT : env.allTestOk = true) :
    (doctor opts env w).1 = .verifiedAll ∧
    ((doctor opts env w).2.trace.all fun p => !p.1.isSessionWrite) = true ∧
    ((doctor opts env w).2.trace.all fun p => !p.1.isSingleInstall) = true ∧
    (doctor opts env w).2.world.packageJson = some (applyUpgrades pkg env.upgrades) ∧
    (doctor opts env w).2.world.lockFile = lockAfterAll env w := by
  rw [doctor_eq_main opts env w pkg hLoad,
    doctorMain_verifiedAll opts env w pkg hBI hBT hUp hAI hAT]
  refine ⟨rfl, ?_, ?_, rfl, rfl⟩
  · simp [stVerifiedAll, baseTrace, Event.isSessionWrite]
  · simp [stVerifiedAll, baseTrace, Event.isSingleInstall]

/-- Witness for claim C6 at a concrete session whose upgraded tests
pass. -/
theorem claim_C6_witness :
    (doctor optsC envC6 worldC).1 = DoctorResult.verifiedAll ∧
    ((doctor optsC envC6 worldC).2.trace.all fun p => !p.1.isSessionWrite) = true ∧
    ((doctor optsC envC6 worldC).2.trace.all fun p => !p.1.isSingleInstall) = true ∧
    (doctor optsC envC6 worldC).2.world.packageJson =
      some (applyUpgrades pkgC envC6.upgrades) ∧
    (doctor optsC envC6 worldC).2.world.lockFile = lockAfterAll envC6 worldC :=
  claim_C6 optsC envC6 worldC pkgC rfl rfl rfl (by decide) rfl rfl

theorem installEff_trace (site : Site) (ok : Bool) (eff : Option String) (st : St) :
    ∃ q, (installEff site ok eff st).trace = st.trace ++ [(Event.install site ok, q)] := by
  cases eff <;> cases ok <;> exact ⟨_, rfl⟩

/-- State at the end of the baseline phase. -/
def stBaseline (env : Env) (w : World) : St :=
  { world := wBase env w, trace := baseTrace env w }

theorem doctorMain_baseline_ok (opts : Options) (env : Env) (w : World) (pkg : PkgFile)
    (hBI : env.baselineInstallOk = true) :
    doctorMain opts env w pkg =
      if env.baselineTestOk then
        doctorUpgradePhase opts pkg env (lockContentOrEmpty (lockAfterBaseline env w))
          (stBaseline env w)
      else (.baselineTestExit, stBaseline env w) := by
  unfold doctorMain
  rw [hBI]
  simp only [if_true, reduceIte]
  cases hb : env.baselineInstallLock with
  | none =>
    by_cases hBT : env.baselineTestOk = true <;>
      simp [installEff, applyLockEffect, emit, St.init, stBaseline, wBase, baseTrace,
        lockAfterBaseline, hb, hBT]
  | some l0 =>
    by_cases hBT : env.baselineTestOk = true <;>
      simp [installEff, applyLockEffect, emit, St.init, stBaseline, wBase, baseTrace,
        lockAfterBaseline, hb, hBT]

/-- Claim C8 as amended: the baseline phase proceeds in the order manifest
snapshot read, baseline install, lock file snapshot read, baseline test;
the lock file snapshot is taken after the baseline install, not before. -/
theorem claim_C8_amended (opts : Options) (env : Env) (w : World) (pkg : PkgFile)
    (hLoad : loadPackageFile opts w = .ok pkg)
    (hBI : env.baselineInstallOk = true) :
    ∃ rest, events (doctor opts env w).2 =
      [Event.readManifest, Event.install .baseline true,
       Event.readLockSnapshot (lockAfterBaseline env w).isSome,
       Event.test .baseline env.baselineTestOk] ++ rest := by
  rw [doctor_eq_main opts env w pkg hLoad, doctorMain_baseline_ok opts env w pkg hBI]
  by_cases hBT : env.baselineTestOk = true
  · simp only [hBT, if_true, reduceIte]
    obtain ⟨e, he⟩ := traceExtends_doctorUpgradePhase opts pkg env
      (lockContentOrEmpty (lockAfterBaseline env w)) (stBaseline env w)
    refine ⟨e.map Prod.fst, ?_⟩
    unfold events
    rw [he, List.map_append]
    congr 1
    simp [stBaseline, baseTrace, hBT]
  · simp only [hBT, Bool.false_eq_true, if_false, reduceIte]
    refine ⟨[], ?_⟩
    simp only [Bool.not_eq_true] at hBT
    simp [events, stBaseline, baseTrace, hBT]

/-- Witness for the amended claim C8 at a concrete session. -/
theorem claim_C8_amended_witness :
    ∃ rest, events (doctor optsC envC worldC).2 =
      [Event.readManifest, Event.install .baseline true,
       Event.readLockSnapshot (lockAfterBaseline envC worldC).isSome,
       Event.test .baseline envC.baselineTestOk] ++ rest :=
  claim_C8_amended optsC envC worldC pkgC rfl rfl

/-- Counterexample to claim C8 as stated: in this concrete session the
unique baseline install event occurs strictly before the unique lock file
snapshot event, so the lock file snapshot used for rollback is not taken
before the baseline install runs. -/
theorem claim_C8_counterexample :
    (Event.readLockSnapshot true) ∈ events (doctor optsC envC worldC).2 ∧
    (Event.install .baseline true) ∈ events (doctor optsC envC worldC).2 ∧
    (events (doctor optsC envC worldC).2).indexOf (Event.install .baseline true) <
      (events (doctor optsC envC worldC).2).indexOf (Event.readLockSnapshot true) ∧
    (events (doctor optsC envC worldC).2).count (Event.install .baseline true) = 1 ∧
    (events (doctor optsC envC worldC).2).count (Event.readLockSnapshot true) = 1 := by
  decide

set_option maxRecDepth 10000 in
/-- Claim C3: when the baseline reinstall performed after rolling back a
failed full upgrade itself fails, the session ends fatally with the
reinstall diagnostic, no bisection step is ever run, and the diagnostic
names the install command, points at the connection, and differs from the
ordinary test failure report. -/
theorem claim_C3 (opts : Options) (env : Env) (w : World) (pkg : PkgFile)
    (hLoad : loadPackageFile opts w = .ok pkg)
    (hBI : env.baselineInstallOk = true) (hBT : env.baselineTestOk = true)
    (hUp : env.upgrades ≠ []) (hAI : env.allInstallOk = true)
    (hAT : env.allTestOk = false) (hRe : env.reinstallOk = false) :
    (doctor opts env w).1 = .reinstallFatal (reinstallFatalMessage opts) ∧
    ((doctor opts env w).2.trace.all fun p => !p.1.isSingleInstall) = true ∧
    reinstallFatalMessage opts =
      reinstallMsgA ++ (pmName opts.packageManager ++ " install") ++ reinstallMsgB ∧
    (∃ a b : String, reinstallMsgB = a ++ "internet connection" ++ b) ∧
    reinstallFatalMessage opts ≠ testsFailedDiagnostic := by
  rw [doctor_eq_main opts env w pkg hLoad,
    doctorMain_catch_testfail opts env w pkg hBI hBT hUp hAI hAT,
    doctorCatch_reinstall_fail opts pkg env _ _ hRe]
  refine ⟨rfl, ?_, rfl, ?_, ?_⟩
  · obtain ⟨q, hq⟩ := installEff_trace .reinstall false env.reinstallLock
      (rollbackRestore pkg (lockContentOrEmpty (lockAfterBaseline env w))
        (stCatchTestFail env w pkg))
    rw [hq, rollbackRestore_trace]
    by_cases hs : lockContentOrEmpty (lockAfterBaseline env w) = "" <;>
      simp [stCatchTestFail, baseTrace, rollbackTraceEvents, Event.isSingleInstall, hs]
  · exact ⟨" failed after rolling back to your existing package and lock files. This is unexpected since the initial install before any upgrades succeeded. Either npm failed to revert a partial install, or failed anomalously on the second run. Please check your ",
      " and retry. If doctor mode fails consistently, report a bug with your complete list of dependency versions at https://github.com/raineorshine/npm-check-updates/issues.",
      by rfl⟩
  · have h1 : opts.packageManager = PM.npm ∨ opts.packageManager = PM.yarn := by
      cases opts.packageManager
      · exact Or.inl rfl
      · exact Or.inr rfl
    rcases h1 with h | h <;>
      simp only [reinstallFatalMessage, installCommand, pmName, h] <;> decide

/-- Witness for claim C3 at a concrete session whose reinstall fails. -/
theorem claim_C3_witness :
    (doctor optsC envC3 worldC).1 = .reinstallFatal (reinstallFatalMessage optsC) ∧
    ((doctor optsC envC3 worldC).2.trace.all fun p => !p.1.isSingleInstall) = true ∧
    reinstallFatalMessage optsC =
      reinstallMsgA ++ (pmName optsC.packageManager ++ " install") ++ reinstallMsgB ∧
    (∃ a b : String, reinstallMsgB = a ++ "internet connection" ++ b) ∧
    reinstallFatalMessage optsC ≠ testsFailedDiagnostic :=
  claim_C3 optsC envC3 worldC pkgC rfl rfl rfl (by decide) rfl rfl rfl

/-- Install action at the reinstall call site, the baseline reinstall of
lines 194 to 204. -/
def Event.isReinstall : Event → Bool
  | .install .reinstall _ => true
  | _ => false

/-- Trace of the second state extends the trace of the first and the
extension performs no baseline reinstall. -/
def NoReinstall (a b : St) : Prop :=
  ∃ ext, b.trace = a.trace ++ ext ∧ (ext.all fun p => !p.1.isReinstall) = true

theorem noReinstall_refl (st : St) : NoReinstall st st :=
  ⟨[], (List.append_nil _).symm, rfl⟩

theorem noReinstall_trans {a b c : St} (h1 : NoReinstall a b) (h2 : NoReinstall b c) :
    NoReinstall a c := by
  obtain ⟨e1, he1, ha1⟩ := h1
  obtain ⟨e2, he2, ha2⟩ := h2
  exact ⟨e1 ++ e2, by rw [he2, he1, List.append_assoc],
    by simp [List.all_append, ha1, ha2]⟩

theorem noReinstall_emit (e : Event) (st : St) (he : e.isReinstall = false) :
    NoReinstall st (emit e st) :=
  ⟨[(e, st.world)], rfl, by simp [he]⟩

theorem noReinstall_applyLockEffect (eff : Option String) (st : St) :
    NoReinstall st (applyLockEffect eff st) :=
  ⟨[], by rw [applyLockEffect_trace, List.append_nil], rfl⟩

theorem noReinstall_installEff (site : Site) (ok : Bool) (eff : Option String) (st : St)
    (hs : (Event.install site ok).isReinstall = false) :
    NoReinstall st (installEff site ok eff st) := by
  unfold installEff
  refine noReinstall_trans ?_ (noReinstall_emit _ _ hs)
  by_cases hok : ok = true
  · simp only [hok, if_true, reduceIte]
    exact noReinstall_applyLockEffect eff st
  · simp only [Bool.not_eq_true] at hok
    simp only [hok, Bool.false_eq_true, if_false, reduceIte]
    exact noReinstall_refl st

theorem noReinstall_writeManifestFile (pkg : PkgFile) (st : St) :
    NoReinstall st (writeManifestFile pkg st) :=
  ⟨[(Event.writeManifest pkg, { st.world with packageJson := some pkg })], rfl, rfl⟩

theorem noReinstall_failRestore (opts : Options) (lastPkg : PkgFile)
    (lockVar : String) (st : St) :
    NoReinstall st (failRestore opts lastPkg lockVar st) := by
  rw [failRestore_eq]
  refine ⟨failTraceEvents opts lastPkg lockVar st.world, rfl, ?_⟩
  by_cases hy : opts.packageManager = PM.yarn <;>
    simp [failTraceEvents, Event.isReinstall, hy]

theorem noReinstall_bisectStep (opts : Options) (pkg : PkgFile) (env : Env)
    (n v : String) (lastPkg : PkgFile) (lockVar : String) (st : St) :
    NoReinstall st (bisectStep opts pkg env n v lastPkg lockVar st).2.2 := by
  by_cases hI : env.singleInstallOk n = true
  · by_cases hpf : pkg.scriptsPrepare = true ∧ env.prepareOk n = false
    · rw [bisectStep_prepare_fail opts pkg env n v lastPkg lockVar st hI hpf.1 hpf.2]
      exact noReinstall_trans (noReinstall_applyLockEffect _ _)
        (noReinstall_trans (noReinstall_emit _ _ (by rfl))
          (noReinstall_trans (noReinstall_emit _ _ (by rfl)) (noReinstall_failRestore _ _ _ _)))
    · have hP : pkg.scriptsPrepare = true → env.prepareOk n = true := by
        intro hp
        by_cases hPr : env.prepareOk n = true
        · exact hPr
        · exact absurd ⟨hp, by revert hPr; cases env.prepareOk n <;> simp⟩ hpf
      by_cases hT : env.depTestOk n = true
      · cases hl : env.singleInstallLock n with
        | some l =>
          rw [bisectStep_success opts pkg env n v lastPkg lockVar st hI hl hP hT]
          refine ⟨stepSuccTrace opts pkg n v st.world l, rfl, ?_⟩
          by_cases hp : pkg.scriptsPrepare = true <;>
            simp [stepSuccTrace, Event.isReinstall, hp]
        | none =>
          cases hw : st.world.lockFile with
          | some l2 =>
            rw [bisectStep_success_keep opts pkg env n v lastPkg lockVar st hI hl hw hP hT]
            by_cases hp : pkg.scriptsPrepare = true
            · simp only [hp, if_true, reduceIte]
              exact noReinstall_trans (noReinstall_emit _ _ (by rfl))
                (noReinstall_trans (noReinstall_emit _ _ (by rfl))
                  (noReinstall_trans (noReinstall_emit _ _ (by rfl)) (noReinstall_emit _ _ (by rfl))))
            · simp only [Bool.not_eq_true] at hp
              simp only [hp, Bool.false_eq_true, if_false, reduceIte]
              exact noReinstall_trans (noReinstall_emit _ _ (by rfl))
                (noReinstall_trans (noReinstall_emit _ _ (by rfl)) (noReinstall_emit _ _ (by rfl)))
          | none =>
            rw [bisectStep_readfail opts pkg env n v lastPkg lockVar st hI hl hw hP hT]
            by_cases hp : pkg.scriptsPrepare = true
            · simp only [hp, if_true, reduceIte]
              exact noReinstall_trans (noReinstall_emit _ _ (by rfl))
                (noReinstall_trans (noReinstall_emit _ _ (by rfl))
                  (noReinstall_trans (noReinstall_emit _ _ (by rfl))
                    (noReinstall_trans (noReinstall_emit _ _ (by rfl))
                      (noReinstall_failRestore _ _ _ _))))
            · simp only [Bool.not_eq_true] at hp
              simp only [hp, Bool.false_eq_true, if_false, reduceIte]
              exact noReinstall_trans (noReinstall_emit _ _ (by rfl))
                (noReinstall_trans (noReinstall_emit _ _ (by rfl))
                  (noReinstall_trans (noReinstall_emit _ _ (by rfl))
                    (noReinstall_failRestore _ _ _ _)))
      · rw [bisectStep_test_fail opts pkg env n v lastPkg lockVar st hI hP
          (by revert hT; cases env.depTestOk n <;> simp)]
        by_cases hp : pkg.scriptsPrepare = true
        · simp only [hp, if_true, reduceIte]
          exact noReinstall_trans (noReinstall_applyLockEffect _ _)
            (noReinstall_trans (noReinstall_emit _ _ (by rfl))
              (noReinstall_trans (noReinstall_emit _ _ (by rfl))
                (noReinstall_trans (noReinstall_emit _ _ (by rfl))
                  (noReinstall_failRestore _ _ _ _))))
        · simp only [Bool.not_eq_true] at hp
          simp only [hp, Bool.false_eq_true, if_false, reduceIte]
          exact noReinstall_trans (noReinstall_applyLockEffect _ _)
            (noReinstall_trans (noReinstall_emit _ _ (by rfl))
              (noReinstall_trans (noReinstall_emit _ _ (by rfl))
                (noReinstall_failRestore _ _ _ _)))
  · rw [bisectStep_install_fail opts pkg env n v lastPkg lockVar st
      (by revert hI; cases env.singleInstallOk n <;> simp)]
    exact noReinstall_trans (noReinstall_emit _ _ (by rfl)) (noReinstall_failRestore _ _ _ _)

theorem noReinstall_bisectLoop (opts : Options) (pkg : PkgFile) (env : Env)
    (ups : List (String × String)) :
    ∀ (lastPkg : PkgFile) (lockVar : String) (st : St),
      NoReinstall st (bisectLoop opts pkg env ups lastPkg lockVar st).2.2 := by
  induction ups with
  | nil => exact fun lastPkg lockVar st => noReinstall_refl st
  | cons u rest ih =>
    intro lastPkg lockVar st
    obtain ⟨n, v⟩ := u
    rw [bisectLoop_cons]
    exact noReinstall_trans (noReinstall_bisectStep opts pkg env n v lastPkg lockVar st)
      (ih _ _ _)

theorem noReinstall_doctorAfterRollback (opts : Options) (pkg : PkgFile) (env : Env)
    (snap : String) (st : St) :
    NoReinstall st (doctorAfterRollback opts pkg env snap st).2 := by
  unfold doctorAfterRollback
  by_cases h1 : (bisectLoop opts pkg env env.upgrades pkg snap st).1 = pkg
  · simp only [h1, if_true, reduceIte]
    exact noReinstall_trans (noReinstall_bisectLoop opts pkg env env.upgrades pkg snap st)
      (noReinstall_installEff _ _ _ _ (by rfl))
  · simp only [h1, if_false, reduceIte]
    exact noReinstall_trans (noReinstall_bisectLoop opts pkg env env.upgrades pkg snap st)
      (noReinstall_trans (noReinstall_writeManifestFile _ _)
        (noReinstall_installEff _ _ _ _ (by rfl)))

/-- Claim C2: when the full upgrade phase fails, the session first writes
the baseline manifest snapshot back to package.json and restores the lock
file to its baseline state, with no bisection step and no other session
write before that restore, and then reinstalls the baseline exactly when
the full upgrade install had succeeded: the reinstall segment is that one
install when the full upgrade install succeeded and is empty when it
failed, no reinstall occurs before or after the segment, and when the
full upgrade install itself failed the whole session trace contains no
baseline reinstall at all. -/
theorem claim_C2 (opts : Options) (env : Env) (w : World) (pkg : PkgFile)
    (hLoad : loadPackageFile opts w = .ok pkg)
    (hBI : env.baselineInstallOk = true) (hBT : env.baselineTestOk = true)
    (hUp : env.upgrades ≠ [])
    (hFail : env.allInstallOk = false ∨ env.allTestOk = false) :
    ∃ preT reSeg rest,
      (doctor opts env w).2.trace =
        preT ++
        rollbackTraceEvents pkg (lockContentOrEmpty (lockAfterBaseline env w))
          (if env.allInstallOk then wAll env w pkg else wNcu env w pkg) ++
        reSeg ++ rest ∧
      (preT.all fun p => !p.1.isSingleInstall && !p.1.isSessionWrite) = true ∧
      (preT.all fun p => !p.1.isReinstall) = true ∧
      (reSeg.all fun p => !p.1.isSingleInstall) = true ∧
      (rest.all fun p => !p.1.isReinstall) = true ∧
      (env.allInstallOk = true →
        ∃ w3, reSeg = [(Event.install .reinstall env.reinstallOk, w3)]) ∧
      (env.allInstallOk = false → reSeg = []) ∧
      (env.allInstallOk = false →
        ((doctor opts env w).2.trace.all fun p => !p.1.isReinstall) = true) := by
  by_cases hAI : env.allInstallOk = true
  · have hAT : env.allTestOk = false := by
      rcases hFail with h | h
      · rw [hAI] at h
        cases h
      · exact h
    rw [doctor_eq_main opts env w pkg hLoad,
      doctorMain_catch_testfail opts env w pkg hBI hBT hUp hAI hAT]
    by_cases hr : env.reinstallOk = true
    · rw [doctorCatch_reinstall_ok opts pkg env _ _ hr]
      obtain ⟨e, he, hallE⟩ := noReinstall_doctorAfterRollback opts pkg env
        (lockContentOrEmpty (lockAfterBaseline env w))
        (installEff .reinstall true env.reinstallLock
          (rollbackRestore pkg (lockContentOrEmpty (lockAfterBaseline env w))
            (stCatchTestFail env w pkg)))
      obtain ⟨q, hq⟩ := installEff_trace .reinstall true env.reinstallLock
        (rollbackRestore pkg (lockContentOrEmpty (lockAfterBaseline env w))
          (stCatchTestFail env w pkg))
      refine ⟨(stCatchTestFail env w pkg).trace,
        [(Event.install .reinstall env.reinstallOk, q)], e, ?_, ?_, ?_, ?_, hallE,
        ?_, ?_, ?_⟩
      · rw [he, hq, rollbackRestore_trace]
        simp only [hAI, if_true, reduceIte, stCatchTestFail, hr, List.append_assoc]
      · simp [stCatchTestFail, baseTrace, Event.isSingleInstall, Event.isSessionWrite]
      · simp [stCatchTestFail, baseTrace, Event.isReinstall]
      · simp [Event.isSingleInstall]
      · exact fun _ => ⟨q, rfl⟩
      · intro hc
        rw [hAI] at hc
        cases hc
      · intro hc
        rw [hAI] at hc
        cases hc
    · have hr2 : env.reinstallOk = false := by
        revert hr
        cases env.reinstallOk <;> simp
      rw [doctorCatch_reinstall_fail opts pkg env _ _ hr2]
      obtain ⟨q, hq⟩ := installEff_trace .reinstall false env.reinstallLock
        (rollbackRestore pkg (lockContentOrEmpty (lockAfterBaseline env w))
          (stCatchTestFail env w pkg))
      refine ⟨(stCatchTestFail env w pkg).trace,
        [(Event.install .reinstall env.reinstallOk, q)], [], ?_, ?_, ?_, ?_, rfl,
        ?_, ?_, ?_⟩
      · rw [hq, rollbackRestore_trace]
        simp only [hAI, if_true, reduceIte, stCatchTestFail, hr2, List.append_assoc,
          List.append_nil]
      · simp [stCatchTestFail, baseTrace, Event.isSingleInstall, Event.isSessionWrite]
      · simp [stCatchTestFail, baseTrace, Event.isReinstall]
      · simp [Event.isSingleInstall]
      · exact fun _ => ⟨q, rfl⟩
      · intro hc
        rw [hAI] at hc
        cases hc
      · intro hc
        rw [hAI] at hc
        cases hc
  · have hAI2 : env.allInstallOk = false := by
      revert hAI
      cases env.allInstallOk <;> simp
    rw [doctor_eq_main opts env w pkg hLoad,
      doctorMain_catch_installfail opts env w pkg hBI hBT hUp hAI2,
      doctorCatch_no_reinstall]
    obtain ⟨e, he, hallE⟩ := noReinstall_doctorAfterRollback opts pkg env
      (lockContentOrEmpty (lockAfterBaseline env w))
      (rollbackRestore pkg (lockContentOrEmpty (lockAfterBaseline env w))
        (stCatchInstallFail env w pkg))
    refine ⟨(stCatchInstallFail env w pkg).trace, [], e, ?_, ?_, ?_, ?_, hallE,
      ?_, fun _ => rfl, ?_⟩
    · rw [he, rollbackRestore_trace]
      simp only [hAI2, Bool.false_eq_true, if_false, reduceIte, stCatchInstallFail,
        List.append_assoc, List.nil_append, List.append_nil]
    · simp [stCatchInstallFail, baseTrace, Event.isSingleInstall, Event.isSessionWrite]
    · simp [stCatchInstallFail, baseTrace, Event.isReinstall]
    · simp
    · intro hc
      rw [hAI2] at hc
      cases hc
    · intro _
      rw [he, rollbackRestore_trace]
      have hrb : ((rollbackTraceEvents pkg (lockContentOrEmpty (lockAfterBaseline env w))
          (stCatchInstallFail env w pkg).world).all fun p => !p.1.isReinstall) = true := by
        by_cases hs : lockContentOrEmpty (lockAfterBaseline env w) = "" <;>
          simp [rollbackTraceEvents, Event.isReinstall, hs]
      have hpre : ((stCatchInstallFail env w pkg).trace.all
          fun p => !p.1.isReinstall) = true := by
        simp [stCatchInstallFail, baseTrace, Event.isReinstall]
      rw [List.all_append, List.all_append, hpre, hrb, hallE]
      rfl

/-- Environment variant in which the install with all upgrades applied
itself fails. -/
def envC2f : Env := { envC with allInstallOk := false }

/-- Witness for claim C2 at a concrete session whose full upgrade install
fails, exercising the no reinstall direction of the claim. -/
theorem claim_C2_witness :
    ∃ preT reSeg rest,
      (doctor optsC envC2f worldC).2.trace =
        preT ++
        rollbackTraceEvents pkgC (lockContentOrEmpty (lockAfterBaseline envC2f worldC))
          (if envC2f.allInstallOk then wAll envC2f worldC pkgC
           else wNcu envC2f worldC pkgC) ++
        reSeg ++ rest ∧
      (preT.all fun p => !p.1.isSingleInstall && !p.1.isSessionWrite) = true ∧
      (preT.all fun p => !p.1.isReinstall) = true ∧
      (reSeg.all fun p => !p.1.isSingleInstall) = true ∧
      (rest.all fun p => !p.1.isReinstall) = true ∧
      (envC2f.allInstallOk = true →
        ∃ w3, reSeg = [(Event.install .reinstall envC2f.reinstallOk, w3)]) ∧
      (envC2f.allInstallOk = false → reSeg = []) ∧
      (envC2f.allInstallOk = false →
        ((doctor optsC envC2f worldC).2.trace.all fun p => !p.1.isReinstall) = true) :=
  claim_C2 optsC envC2f worldC pkgC rfl rfl rfl (by decide) (Or.inl rfl)

/-- Claim C10: when no lock file existed at the baseline snapshot, the
rollback after a full batch failure removes the lock file that the
upgraded install created instead of writing snapshot bytes: the restore
segment is a manifest write, whose world still carries the lock the
upgraded install produced, followed by a lock file removal whose world is
the restored no lock baseline, and no session write precedes it. -/
theorem claim_C10 (opts : Options) (env : Env) (w : World) (pkg : PkgFile)
    (hLoad : loadPackageFile opts w = .ok pkg)
    (hBI : env.baselineInstallOk = true) (hBT : env.baselineTestOk = true)
    (hUp : env.upgrades ≠ [])
    (hNoLock : w.lockFile = none) (hBLock : env.baselineInstallLock = none)
    (hAI : env.allInstallOk = true) (hAT : env.allTestOk = false)
    (hALock : env.allInstallLock = some lU) :
    ∃ preT rest,
      (doctor opts env w).2.trace =
        preT ++
        [(Event.writeManifest pkg,
           { packageJson := some pkg, lockFile := some lU }),
         (Event.deleteLock, ⟨some pkg, none⟩)] ++ rest ∧
      (preT.all fun p => !p.1.isSessionWrite) = true := by
  have hsnap : lockContentOrEmpty (lockAfterBaseline env w) = "" := by
    simp [lockAfterBaseline, hBLock, hNoLock, lockContentOrEmpty]
  have hrb : rollbackTraceEvents pkg (lockContentOrEmpty (lockAfterBaseline env w))
      (wAll env w pkg) =
      [(Event.writeManifest pkg, { packageJson := some pkg, lockFile := some lU }),
       (Event.deleteLock, ⟨some pkg, none⟩)] := by
    simp [rollbackTraceEvents, hsnap, wAll, lockAfterAll, hALock]
  rw [doctor_eq_main opts env w pkg hLoad,
    doctorMain_catch_testfail opts env w pkg hBI hBT hUp hAI hAT]
  by_cases hr : env.reinstallOk = true
  · rw [doctorCatch_reinstall_ok opts pkg env _ _ hr]
    obtain ⟨e, he⟩ := traceExtends_doctorAfterRollback opts pkg env
      (lockContentOrEmpty (lockAfterBaseline env w))
      (installEff .reinstall true env.reinstallLock
        (rollbackRestore pkg (lockContentOrEmpty (lockAfterBaseline env w))
          (stCatchTestFail env w pkg)))
    obtain ⟨q, hq⟩ := installEff_trace .reinstall true env.reinstallLock
      (rollbackRestore pkg (lockContentOrEmpty (lockAfterBaseline env w))
        (stCatchTestFail env w pkg))
    refine ⟨(stCatchTestFail env w pkg).trace,
      [(Event.install .reinstall true, q)] ++ e, ?_, ?_⟩
    · rw [he, hq, rollbackRestore_trace]
      rw [show (stCatchTestFail env w pkg).world = wAll env w pkg from rfl, hrb]
      simp only [List.append_assoc]
    · simp [stCatchTestFail, baseTrace, Event.isSessionWrite]
  · have hr2 : env.reinstallOk = false := by
      revert hr
      cases env.reinstallOk <;> simp
    rw [doctorCatch_reinstall_fail opts pkg env _ _ hr2]
    obtain ⟨q, hq⟩ := installEff_trace .reinstall false env.reinstallLock
      (rollbackRestore pkg (lockContentOrEmpty (lockAfterBaseline env w))
        (stCatchTestFail env w pkg))
    refine ⟨(stCatchTestFail env w pkg).trace, [(Event.install .reinstall false, q)], ?_, ?_⟩
    · rw [hq, rollbackRestore_trace]
      rw [show (stCatchTestFail env w pkg).world = wAll env w pkg from rfl, hrb]
      try simp only [List.append_assoc]
    · simp [stCatchTestFail, baseTrace, Event.isSessionWrite]

/-- Witness for claim C10 at a concrete session without a baseline lock
file. -/
theorem claim_C10_witness :
    ∃ preT rest,
      (doctor optsC envC10 worldNoLock).2.trace =
        preT ++
        [(Event.writeManifest pkgC,
           { packageJson := some pkgC, lockFile := some "lockAll" }),
         (Event.deleteLock, ⟨some pkgC, none⟩)] ++ rest ∧
      (preT.all fun p => !p.1.isSessionWrite) = true :=
  claim_C10 optsC envC10 worldNoLock pkgC rfl rfl rfl (by decide) rfl rfl rfl rfl rfl

theorem applyLockEffect_world_packageJson (eff : Option String) (st : St) :
    (applyLockEffect eff st).world.packageJson = st.world.packageJson := by
  cases eff <;> rfl

/-- Test action of a bisection step. -/
def Event.isDepTest : Event → Bool
  | .depTest _ _ => true
  | _ => false

theorem events_emit (e : Event) (st : St) : events (emit e st) = events st ++ [e] := by
  simp [events, emit]

theorem failRestore_after (opts : Options) (lastPkg : PkgFile) (lockVar : String)
    (st st' : St) (ext0 : List Event)
    (hw : st'.world.packageJson = st.world.packageJson)
    (he : events st' = events st ++ ext0)
    (hall : (ext0.all fun e => !e.isSessionWrite) = true) :
    (failRestore opts lastPkg lockVar st').world.lockFile = some lockVar ∧
    (opts.packageManager = PM.yarn →
      (failRestore opts lastPkg lockVar st').world.packageJson = some lastPkg) ∧
    (opts.packageManager = PM.npm →
      (failRestore opts lastPkg lockVar st').world.packageJson = st.world.packageJson) ∧
    ∃ ext, events (failRestore opts lastPkg lockVar st') = events st ++ ext ++
        ([Event.writeLock lockVar] ++
         (if opts.packageManager = PM.yarn then [Event.writeManifest lastPkg] else [])) ∧
      (ext.all fun e => !e.isSessionWrite) = true := by
  by_cases hy : opts.packageManager = PM.yarn
  · refine ⟨?_, fun _ => ?_, fun hn => ?_, ⟨ext0, ?_, hall⟩⟩
    · simp [failRestore_eq, hy]
    · simp [failRestore_eq, hy]
    · exact absurd (hn.symm.trans hy) (by decide)
    · simp [failRestore_eq, failTraceEvents, events, hy, List.append_assoc] at he ⊢
      simp [he]
  · have hn : opts.packageManager = PM.npm := by
      revert hy
      cases opts.packageManager <;> simp
    refine ⟨?_, fun hyy => ?_, fun _ => ?_, ⟨ext0, ?_, hall⟩⟩
    · simp [failRestore_eq, hy]
    · exact absurd (hyy.symm.trans hn) (by decide)
    · simp [failRestore_eq, hy, hw]
    · simp [failRestore_eq, failTraceEvents, events, hy, List.append_assoc] at he ⊢
      simp [he]

theorem bisectStep_events (opts : Options) (pkg : PkgFile) (env : Env)
    (n v : String) (lastPkg : PkgFile) (lockVar : String) (st : St) :
    ∃ ext, events (bisectStep opts pkg env n v lastPkg lockVar st).2.2 =
      events st ++
        Event.singleInstall (singleInstallArgs opts n v) (env.singleInstallOk n) :: ext := by
  by_cases hI : env.singleInstallOk n = true
  · have hobom : TraceExtends
        (emit (.singleInstall (singleInstallArgs opts n v) true)
          (applyLockEffect (env.singleInstallLock n) st))
        (bisectStep opts pkg env n v lastPkg lockVar st).2.2 := by
      by_cases hpf : pkg.scriptsPrepare = true ∧ env.prepareOk n = false
      · rw [bisectStep_prepare_fail opts pkg env n v lastPkg lockVar st hI hpf.1 hpf.2]
        exact traceExtends_trans (traceExtends_emit _ _) (traceExtends_failRestore _ _ _ _)
      · have hP : pkg.scriptsPrepare = true → env.prepareOk n = true := by
          intro hp
          by_cases hPr : env.prepareOk n = true
          · exact hPr
          · exact absurd ⟨hp, by revert hPr; cases env.prepareOk n <;> simp⟩ hpf
        by_cases hT : env.depTestOk n = true
        · cases hl : env.singleInstallLock n with
          | some l =>
            rw [bisectStep_success opts pkg env n v lastPkg lockVar st hI hl hP hT]
            refine ⟨stepSuccTrace opts pkg n v st.world l |>.drop 1, ?_⟩
            by_cases hp : pkg.scriptsPrepare = true <;>
              simp [stepSuccTrace, emit, applyLockEffect, hl, hp, TraceExtends]
          | none =>
            cases hw : st.world.lockFile with
            | some l2 =>
              rw [bisectStep_success_keep opts pkg env n v lastPkg lockVar st hI hl hw hP hT]
              by_cases hp : pkg.scriptsPrepare = true
              · simp only [hp, if_true, reduceIte]
                exact traceExtends_trans (traceExtends_emit _ _)
                  (traceExtends_trans (traceExtends_emit _ _) (traceExtends_emit _ _))
              · simp only [hp, Bool.false_eq_true, if_false, reduceIte]
                exact traceExtends_trans (traceExtends_emit _ _) (traceExtends_emit _ _)
            | none =>
              rw [bisectStep_readfail opts pkg env n v lastPkg lockVar st hI hl hw hP hT]
              by_cases hp : pkg.scriptsPrepare = true
              · simp only [hp, if_true, reduceIte]
                exact traceExtends_trans (traceExtends_emit _ _)
                  (traceExtends_trans (traceExtends_emit _ _)
                    (traceExtends_trans (traceExtends_emit _ _)
                      (traceExtends_failRestore _ _ _ _)))
              · simp only [hp, Bool.false_eq_true, if_false, reduceIte]
                exact traceExtends_trans (traceExtends_emit _ _)
                  (traceExtends_trans (traceExtends_emit _ _)
                    (traceExtends_failRestore _ _ _ _))
        · rw [bisectStep_test_fail opts pkg env n v lastPkg lockVar st hI hP
            (by revert hT; cases env.depTestOk n <;> simp)]
          by_cases hp : pkg.scriptsPrepare = true
          · simp only [hp, if_true, reduceIte]
            exact traceExtends_trans (traceExtends_emit _ _)
              (traceExtends_trans (traceExtends_emit _ _) (traceExtends_failRestore _ _ _ _))
          · simp only [hp, Bool.false_eq_true, if_false, reduceIte]
            exact traceExtends_trans (traceExtends_emit _ _) (traceExtends_failRestore _ _ _ _)
    obtain ⟨e, he⟩ := hobom
    refine ⟨e.map Prod.fst, ?_⟩
    rw [hI]
    unfold events
    rw [he, emit_trace, applyLockEffect_trace, List.map_append, List.map_append]
    simp [List.append_assoc]
  · have hI2 : env.singleInstallOk n = false := by
      revert hI
      cases env.singleInstallOk n <;> simp
    rw [bisectStep_install_fail opts pkg env n v lastPkg lockVar st hI2, hI2]
    refine ⟨(failTraceEvents opts lastPkg lockVar
      (emit (.singleInstall (singleInstallArgs opts n v) false) st).world).map Prod.fst, ?_⟩
    simp [failRestore_eq, events, emit, List.append_assoc]

/-- Claim C4: a failing bisection step recovers locally. The loop
continues with the next dependency carrying the unchanged accumulated
manifest and lock capture; the lock file is restored from the last good
capture; package.json is restored from the last good manifest exactly
when the package manager is yarn, and is untouched for npm; and the only
writes of the failing step are that lock restore plus, for yarn, the
manifest restore. -/
theorem claim_C4 (opts : Options) (pkg : PkgFile) (env : Env) (n v : String)
    (rest : List (String × String)) (lastPkg : PkgFile) (lockVar : String) (st : St)
    (hfail : env.singleInstallOk n = false ∨
      (pkg.scriptsPrepare = true ∧ env.prepareOk n = false) ∨
      env.depTestOk n = false) :
    ∃ st2,
      bisectLoop opts pkg env ((n, v) :: rest) lastPkg lockVar st =
        bisectLoop opts pkg env rest lastPkg lockVar st2 ∧
      st2.world.lockFile = some lockVar ∧
      (opts.packageManager = PM.yarn → st2.world.packageJson = some lastPkg) ∧
      (opts.packageManager = PM.npm → st2.world.packageJson = st.world.packageJson) ∧
      ∃ ext, events st2 = events st ++ ext ++
          ([Event.writeLock lockVar] ++
           (if opts.packageManager = PM.yarn then [Event.writeManifest lastPkg] else [])) ∧
        (ext.all fun e => !e.isSessionWrite) = true := by
  by_cases hI : env.singleInstallOk n = true
  · by_cases hpf : pkg.scriptsPrepare = true ∧ env.prepareOk n = false
    · rw [bisectLoop_cons]
      rw [bisectStep_prepare_fail opts pkg env n v lastPkg lockVar st hI hpf.1 hpf.2]
      refine ⟨_, rfl, ?_⟩
      exact failRestore_after opts lastPkg lockVar st _
        [Event.singleInstall (singleInstallArgs opts n v) true, Event.prepare n false]
        (by simp [emit, applyLockEffect_world_packageJson])
        (by simp [events_emit, events, emit, applyLockEffect_trace, List.append_assoc])
        (by simp [Event.isSessionWrite])
    · have hP : pkg.scriptsPrepare = true → env.prepareOk n = true := by
        intro hp
        by_cases hPr : env.prepareOk n = true
        · exact hPr
        · exact absurd ⟨hp, by revert hPr; cases env.prepareOk n <;> simp⟩ hpf
      have hT : env.depTestOk n = false := by
        rcases hfail with hIf | hc | hT
        · rw [hI] at hIf
          cases hIf
        · exact absurd hc hpf
        · exact hT
      rw [bisectLoop_cons]
      rw [bisectStep_test_fail opts pkg env n v lastPkg lockVar st hI hP hT]
      refine ⟨_, rfl, ?_⟩
      by_cases hp : pkg.scriptsPrepare = true
      · refine failRestore_after opts lastPkg lockVar st _
          [Event.singleInstall (singleInstallArgs opts n v) true, Event.prepare n true,
            Event.depTest n false] ?_ ?_ (by simp [Event.isSessionWrite])
        · simp [hp, emit, applyLockEffect_world_packageJson]
        · simp [hp, events_emit, events, emit, applyLockEffect_trace, List.append_assoc]
      · refine failRestore_after opts lastPkg lockVar st _
          [Event.singleInstall (singleInstallArgs opts n v) true,
            Event.depTest n false] ?_ ?_ (by simp [Event.isSessionWrite])
        · simp [hp, emit, applyLockEffect_world_packageJson]
        · simp [hp, events_emit, events, emit, applyLockEffect_trace, List.append_assoc]
  · have hI2 : env.singleInstallOk n = false := by
      revert hI
      cases env.singleInstallOk n <;> simp
    rw [bisectLoop_cons]
    rw [bisectStep_install_fail opts pkg env n v lastPkg lockVar st hI2]
    refine ⟨_, rfl, ?_⟩
    exact failRestore_after opts lastPkg lockVar st _
      [Event.singleInstall (singleInstallArgs opts n v) false]
      (by simp [emit])
      (by simp [events_emit])
      (by simp [Event.isSessionWrite])

/-- Witness for claim C4 at a concrete failing step for beta. -/
theorem claim_C4_witness :
    ∃ st2,
      bisectLoop optsC pkgC envC [("beta", "2.0.0"), ("gamma", "2.0.0")] pkgC "lockB"
          (St.init worldC) =
        bisectLoop optsC pkgC envC [("gamma", "2.0.0")] pkgC "lockB" st2 ∧
      st2.world.lockFile = some "lockB" ∧
      (optsC.packageManager = PM.yarn → st2.world.packageJson = some pkgC) ∧
      (optsC.packageManager = PM.npm →
        st2.world.packageJson = (St.init worldC).world.packageJson) ∧
      ∃ ext, events st2 = events (St.init worldC) ++ ext ++
          ([Event.writeLock "lockB"] ++
           (if optsC.packageManager = PM.yarn then [Event.writeManifest pkgC] else [])) ∧
        (ext.all fun e => !e.isSessionWrite) = true :=
  claim_C4 optsC pkgC envC "beta" "2.0.0" [("gamma", "2.0.0")] pkgC "lockB"
    (St.init worldC) (Or.inl (by decide))

theorem bisectStep_events_prepare (opts : Options) (pkg : PkgFile) (env : Env)
    (n v : String) (lastPkg : PkgFile) (lockVar : String) (st : St)
    (hI : env.singleInstallOk n = true) (hp : pkg.scriptsPrepare = true) :
    ∃ ext, events (bisectStep opts pkg env n v lastPkg lockVar st).2.2 =
      events st ++ Event.singleInstall (singleInstallArgs opts n v) true ::
        Event.prepare n (env.prepareOk n) :: ext := by
  have hx : TraceExtends
      (emit (.prepare n (env.prepareOk n))
        (emit (.singleInstall (singleInstallArgs opts n v) true)
          (applyLockEffect (env.singleInstallLock n) st)))
      (bisectStep opts pkg env n v lastPkg lockVar st).2.2 := by
    by_cases hPf : env.prepareOk n = false
    · rw [bisectStep_prepare_fail opts pkg env n v lastPkg lockVar st hI hp hPf, hPf]
      exact traceExtends_failRestore _ _ _ _
    · have hP : env.prepareOk n = true := by
        revert hPf
        cases env.prepareOk n <;> simp
      rw [hP]
      by_cases hT : env.depTestOk n = true
      · cases hl : env.singleInstallLock n with
        | some l =>
          rw [bisectStep_success opts pkg env n v lastPkg lockVar st hI hl (fun _ => hP) hT]
          refine ⟨[(Event.depTest n true, { st.world with lockFile := some l }),
            (Event.readLockLoop n true, { st.world with lockFile := some l })], ?_⟩
          simp [stepSuccTrace, emit, applyLockEffect, hl, hp, List.append_assoc]
        | none =>
          cases hw : st.world.lockFile with
          | some l2 =>
            rw [bisectStep_success_keep opts pkg env n v lastPkg lockVar st hI hl hw
              (fun _ => hP) hT]
            simp only [hp, if_true, reduceIte, hl]
            exact traceExtends_trans (traceExtends_emit _ _) (traceExtends_emit _ _)
          | none =>
            rw [bisectStep_readfail opts pkg env n v lastPkg lockVar st hI hl hw
              (fun _ => hP) hT]
            simp only [hp, if_true, reduceIte, hl]
            exact traceExtends_trans (traceExtends_emit _ _)
              (traceExtends_trans (traceExtends_emit _ _) (traceExtends_failRestore _ _ _ _))
      · rw [bisectStep_test_fail opts pkg env n v lastPkg lockVar st hI (fun _ => hP)
          (by revert hT; cases env.depTestOk n <;> simp)]
        simp only [hp, if_true, reduceIte]
        exact traceExtends_trans (traceExtends_emit _ _) (traceExtends_failRestore _ _ _ _)
  obtain ⟨e, he⟩ := hx
  refine ⟨e.map Prod.fst, ?_⟩
  unfold events
  rw [he, emit_trace, emit_trace, applyLockEffect_trace]
  simp [List.append_assoc]

/-- Claim C7: a bisection step installs the single upgrade with yarn add
for yarn and npm install with the no save flag otherwise; when the
package defines a prepare script, it is invoked directly after the single
install and before any test run of the step; and a failing prepare script
rejects the dependency for this step, leaving the accumulated manifest
and lock capture unchanged and running no test, rather than aborting the
session. -/
theorem claim_C7 (opts : Options) (pkg : PkgFile) (env : Env) (n v : String)
    (lastPkg : PkgFile) (lockVar : String) (st : St) :
    singleInstallArgs opts n v =
      (if opts.packageManager = PM.yarn then ["add"] else ["install", "--no-save"]) ++
        [n ++ "@" ++ v] ∧
    (∃ ext, events (bisectStep opts pkg env n v lastPkg lockVar st).2.2 =
      events st ++
        Event.singleInstall (singleInstallArgs opts n v) (env.singleInstallOk n) :: ext) ∧
    (env.singleInstallOk n = true → pkg.scriptsPrepare = true →
      ∃ ext2, events (bisectStep opts pkg env n v lastPkg lockVar st).2.2 =
        events st ++
          Event.singleInstall (singleInstallArgs opts n v) true ::
          Event.prepare n (env.prepareOk n) :: ext2) ∧
    (env.singleInstallOk n = true → pkg.scriptsPrepare = true → env.prepareOk n = false →
      (bisectStep opts pkg env n v lastPkg lockVar st).1 = lastPkg ∧
      (bisectStep opts pkg env n v lastPkg lockVar st).2.1 = lockVar ∧
      ∃ ext3,
        events (bisectStep opts pkg env n v lastPkg lockVar st).2.2 =
          events st ++
            [Event.singleInstall (singleInstallArgs opts n v) true,
             Event.prepare n false] ++ ext3 ∧
        (ext3.all fun e => !e.isDepTest) = true) := by
  refine ⟨rfl, bisectStep_events opts pkg env n v lastPkg lockVar st,
    fun hI hp => bisectStep_events_prepare opts pkg env n v lastPkg lockVar st hI hp,
    fun hI hp hPf => ?_⟩
  rw [bisectStep_prepare_fail opts pkg env n v lastPkg lockVar st hI hp hPf]
  refine ⟨rfl, rfl, (failTraceEvents opts lastPkg lockVar
    (emit (.prepare n false)
      (emit (.singleInstall (singleInstallArgs opts n v) true)
        (applyLockEffect (env.singleInstallLock n) st))).world).map Prod.fst, ?_, ?_⟩
  · rw [show events (failRestore opts lastPkg lockVar
        (emit (.prepare n false)
          (emit (.singleInstall (singleInstallArgs opts n v) true)
            (applyLockEffect (env.singleInstallLock n) st)))) =
      ((emit (.prepare n false)
          (emit (.singleInstall (singleInstallArgs opts n v) true)
            (applyLockEffect (env.singleInstallLock n) st))).trace ++
        failTraceEvents opts lastPkg lockVar
          (emit (.prepare n false)
            (emit (.singleInstall (singleInstallArgs opts n v) true)
              (applyLockEffect (env.singleInstallLock n) st))).world).map Prod.fst
      from by rw [events, failRestore_eq]]
    rw [emit_trace, emit_trace, applyLockEffect_trace]
    simp [events, List.append_assoc]
  · by_cases hy : opts.packageManager = PM.yarn <;>
      simp [failTraceEvents, Event.isDepTest, hy]

/-- Package file variant that defines a prepare script. -/
def pkgP : PkgFile := { pkgC with scriptsPrepare := true }

/-- Environment variant whose prepare script always fails. -/
def envPrepFail : Env := { envC with prepareOk := fun _ => false }

/-- Witness for claim C7 at a concrete step for alpha of a package with a
failing prepare script, with every condition of the claim discharged. -/
theorem claim_C7_witness :
    singleInstallArgs optsC "alpha" "2.0.0" =
      (if optsC.packageManager = PM.yarn then ["add"] else ["install", "--no-save"]) ++
        ["alpha" ++ "@" ++ "2.0.0"] ∧
    (∃ ext, events (bisectStep optsC pkgP envPrepFail "alpha" "2.0.0" pkgP "lockB"
        (St.init worldC)).2.2 =
      events (St.init worldC) ++
        Event.singleInstall (singleInstallArgs optsC "alpha" "2.0.0")
          (envPrepFail.singleInstallOk "alpha") :: ext) ∧
    (∃ ext2, events (bisectStep optsC pkgP envPrepFail "alpha" "2.0.0" pkgP "lockB"
        (St.init worldC)).2.2 =
      events (St.init worldC) ++
        Event.singleInstall (singleInstallArgs optsC "alpha" "2.0.0") true ::
        Event.prepare "alpha" (envPrepFail.prepareOk "alpha") :: ext2) ∧
    ((bisectStep optsC pkgP envPrepFail "alpha" "2.0.0" pkgP "lockB"
        (St.init worldC)).1 = pkgP ∧
      (bisectStep optsC pkgP envPrepFail "alpha" "2.0.0" pkgP "lockB"
        (St.init worldC)).2.1 = "lockB" ∧
      ∃ ext3,
        events (bisectStep optsC pkgP envPrepFail "alpha" "2.0.0" pkgP "lockB"
            (St.init worldC)).2.2 =
          events (St.init worldC) ++
            [Event.singleInstall (singleInstallArgs optsC "alpha" "2.0.0") true,
             Event.prepare "alpha" false] ++ ext3 ∧
        (ext3.all fun e => !e.isDepTest) = true) :=
  ⟨(claim_C7 optsC pkgP envPrepFail "alpha" "2.0.0" pkgP "lockB" (St.init worldC)).1,
   (claim_C7 optsC pkgP envPrepFail "alpha" "2.0.0" pkgP "lockB" (St.init worldC)).2.1,
   (claim_C7 optsC pkgP envPrepFail "alpha" "2.0.0" pkgP "lockB"
     (St.init worldC)).2.2.1 rfl rfl,
   (claim_C7 optsC pkgP envPrepFail "alpha" "2.0.0" pkgP "lockB"
     (St.init worldC)).2.2.2 rfl rfl rfl⟩

theorem doctor_to_afterRollback (opts : Options) (env : Env) (w : World) (pkg : PkgFile)
    (hLoad : loadPackageFile opts w = .ok pkg)
    (hBI : env.baselineInstallOk = true) (hBT : env.baselineTestOk = true)
    (hUp : env.upgrades ≠ [])
    (hFail : env.allInstallOk = false ∨ env.allTestOk = false)
    (hRe : env.allInstallOk = true → env.reinstallOk = true) :
    doctor opts env w =
      doctorAfterRollback opts pkg env (lockContentOrEmpty (lockAfterBaseline env w))
        (if env.allInstallOk
         then installEff .reinstall true env.reinstallLock
           (rollbackRestore pkg (lockContentOrEmpty (lockAfterBaseline env w))
             (stCatchTestFail env w pkg))
         else rollbackRestore pkg (lockContentOrEmpty (lockAfterBaseline env w))
           (stCatchInstallFail env w pkg)) := by
  by_cases hAI : env.allInstallOk = true
  · have hAT : env.allTestOk = false := by
      rcases hFail with h | h
      · rw [hAI] at h
        cases h
      · exact h
    rw [doctor_eq_main opts env w pkg hLoad,
      doctorMain_catch_testfail opts env w pkg hBI hBT hUp hAI hAT,
      doctorCatch_reinstall_ok opts pkg env _ _ (hRe hAI)]
    simp only [hAI, if_true, reduceIte]
  · have hAI2 : env.allInstallOk = false := by
      revert hAI
      cases env.allInstallOk <;> simp
    rw [doctor_eq_main opts env w pkg hLoad,
      doctorMain_catch_installfail opts env w pkg hBI hBT hUp hAI2,
      doctorCatch_no_reinstall]
    simp only [hAI2, Bool.false_eq_true, if_false, reduceIte]

/-- Claim C5: a session that completes the bisection loop writes
package.json with the accumulated known good manifest exactly when that
manifest differs from the baseline snapshot, and in either case a final
install runs afterwards from the persisted or restored files: the session
trace is the loop trace, then the conditional manifest write, then the
final install as the last event. -/
theorem claim_C5 (opts : Options) (env : Env) (w : World) (pkg : PkgFile)
    (hLoad : loadPackageFile opts w = .ok pkg)
    (hBI : env.baselineInstallOk = true) (hBT : env.baselineTestOk = true)
    (hUp : env.upgrades ≠ [])
    (hFail : env.allInstallOk = false ∨ env.allTestOk = false)
    (hRe : env.allInstallOk = true → env.reinstallOk = true) :
    ∃ lastPkg lockV stL qf,
      bisectLoop opts pkg env env.upgrades pkg
          (lockContentOrEmpty (lockAfterBaseline env w))
          (if env.allInstallOk
           then installEff .reinstall true env.reinstallLock
             (rollbackRestore pkg (lockContentOrEmpty (lockAfterBaseline env w))
               (stCatchTestFail env w pkg))
           else rollbackRestore pkg (lockContentOrEmpty (lockAfterBaseline env w))
             (stCatchInstallFail env w pkg)) = (lastPkg, lockV, stL) ∧
      (doctor opts env w).2.trace =
        stL.trace ++
        (if lastPkg = pkg then []
         else [(Event.writeManifest lastPkg, ⟨some lastPkg, stL.world.lockFile⟩)]) ++
        [(Event.install .final env.finalInstallOk, qf)] ∧
      (doctor opts env w).1 =
        (if env.finalInstallOk then DoctorResult.bisectionDone
         else DoctorResult.finalInstallFatal) := by
  rw [doctor_to_afterRollback opts env w pkg hLoad hBI hBT hUp hFail hRe]
  unfold doctorAfterRollback
  by_cases hlp : (bisectLoop opts pkg env env.upgrades pkg
      (lockContentOrEmpty (lockAfterBaseline env w))
      (if env.allInstallOk
       then installEff .reinstall true env.reinstallLock
         (rollbackRestore pkg (lockContentOrEmpty (lockAfterBaseline env w))
           (stCatchTestFail env w pkg))
       else rollbackRestore pkg (lockContentOrEmpty (lockAfterBaseline env w))
         (stCatchInstallFail env w pkg))).1 = pkg
  · obtain ⟨qf, hqf⟩ := installEff_trace .final env.finalInstallOk env.finalInstallLock
      (bisectLoop opts pkg env env.upgrades pkg
        (lockContentOrEmpty (lockAfterBaseline env w))
        (if env.allInstallOk
         then installEff .reinstall true env.reinstallLock
           (rollbackRestore pkg (lockContentOrEmpty (lockAfterBaseline env w))
             (stCatchTestFail env w pkg))
         else rollbackRestore pkg (lockContentOrEmpty (lockAfterBaseline env w))
           (stCatchInstallFail env w pkg))).2.2
    refine ⟨_, _, _, qf, rfl, ?_, ?_⟩
    · simp only [hlp, if_true, reduceIte]
      rw [hqf]
      simp
    · simp only [hlp, if_true, reduceIte]
  · obtain ⟨qf, hqf⟩ := installEff_trace .final env.finalInstallOk env.finalInstallLock
      (writeManifestFile
        (bisectLoop opts pkg env env.upgrades pkg
          (lockContentOrEmpty (lockAfterBaseline env w))
          (if env.allInstallOk
           then installEff .reinstall true env.reinstallLock
             (rollbackRestore pkg (lockContentOrEmpty (lockAfterBaseline env w))
               (stCatchTestFail env w pkg))
           else rollbackRestore pkg (lockContentOrEmpty (lockAfterBaseline env w))
             (stCatchInstallFail env w pkg))).1
        (bisectLoop opts pkg env env.upgrades pkg
          (lockContentOrEmpty (lockAfterBaseline env w))
          (if env.allInstallOk
           then installEff .reinstall true env.reinstallLock
             (rollbackRestore pkg (lockContentOrEmpty (lockAfterBaseline env w))
               (stCatchTestFail env w pkg))
           else rollbackRestore pkg (lockContentOrEmpty (lockAfterBaseline env w))
             (stCatchInstallFail env w pkg))).2.2)
    refine ⟨_, _, _, qf, rfl, ?_, ?_⟩
    · simp only [hlp, if_false, reduceIte]
      rw [hqf]
      simp [writeManifestFile, emit, List.append_assoc]
    · simp only [hlp, if_false, reduceIte]

/-- Witness for claim C5 at a concrete session whose upgraded tests
fail. -/
theorem claim_C5_witness :
    ∃ lastPkg lockV stL qf,
      bisectLoop optsC pkgC envC envC.upgrades pkgC
          (lockContentOrEmpty (lockAfterBaseline envC worldC))
          (if envC.allInstallOk
           then installEff .reinstall true envC.reinstallLock
             (rollbackRestore pkgC (lockContentOrEmpty (lockAfterBaseline envC worldC))
               (stCatchTestFail envC worldC pkgC))
           else rollbackRestore pkgC (lockContentOrEmpty (lockAfterBaseline envC worldC))
             (stCatchInstallFail envC worldC pkgC)) = (lastPkg, lockV, stL) ∧
      (doctor optsC envC worldC).2.trace =
        stL.trace ++
        (if lastPkg = pkgC then []
         else [(Event.writeManifest lastPkg, ⟨some lastPkg, stL.world.lockFile⟩)]) ++
        [(Event.install .final envC.finalInstallOk, qf)] ∧
      (doctor optsC envC worldC).1 =
        (if envC.finalInstallOk then DoctorResult.bisectionDone
         else DoctorResult.finalInstallFatal) :=
  claim_C5 optsC envC worldC pkgC rfl rfl rfl (by decide) (Or.inr rfl) (fun _ => rfl)

theorem bisectLoop_single_success (opts : Options) (pkg : PkgFile) (env : Env)
    (n v : String) (lastPkg : PkgFile) (lockV : String) (st : St)
    (hI : env.singleInstallOk n = true) (hl : env.singleInstallLock n = some L)
    (hP : pkg.scriptsPrepare = true → env.prepareOk n = true)
    (hT : env.depTestOk n = true) :
    bisectLoop opts pkg env [(n, v)] lastPkg lockV st =
      (upgradePackageData lastPkg n v, L,
        { world := { st.world with lockFile := some L },
          trace := st.trace ++ stepSuccTrace opts pkg n v st.world L }) := by
  rw [bisectLoop_cons, bisectStep_success opts pkg env n v lastPkg lockV st hI hl hP hT]
  rfl

theorem doctorAfterRollback_ending (opts : Options) (pkg : PkgFile) (env : Env)
    (snap : String) (stE : St) (lastP : PkgFile) (lockF : String)
    (wj : Option PkgFile) (t3 : List (Event × World))
    (hloop : bisectLoop opts pkg env env.upgrades pkg snap stE =
      (lastP, lockF,
        { world := { packageJson := wj, lockFile := some lockF }, trace := t3 }))
    (hneq : lastP ≠ pkg)
    (hFinL : env.finalInstallLock = none) :
    (doctorAfterRollback opts pkg env snap stE).2.world = ⟨some lastP, some lockF⟩ ∧
    (doctorAfterRollback opts pkg env snap stE).2.trace =
      t3 ++ [(Event.writeManifest lastP, ⟨some lastP, some lockF⟩),
             (Event.install .final env.finalInstallOk, ⟨some lastP, some lockF⟩)] := by
  unfold doctorAfterRollback
  rw [hloop, hFinL]
  simp only [if_neg hneq]
  constructor
  · cases env.finalInstallOk <;>
      simp [writeManifestFile, installEff, applyLockEffect, emit]
  · cases env.finalInstallOk <;>
      simp [writeManifestFile, installEff, applyLockEffect, emit, List.append_assoc]

set_option maxHeartbeats 1000000 in
/-- Claim C1: in a session whose full batch fails and whose bisection
loop runs over three dependencies where only the second fails its single
upgrade step, the final accepted set is exactly the first and third: the
package.json on disk at the end is the baseline manifest with the first
and third specifiers upgraded and the second left original, and the lock
file on disk is the one captured after the last successful step. -/
theorem claim_C1 (opts : Options) (env : Env) (w : World) (pkg : PkgFile)
    (n1 v1 n2 v2 n3 v3 s1 s2 s3 L1 L3 : String)
    (hLoad : loadPackageFile opts w = .ok pkg)
    (hBI : env.baselineInstallOk = true) (hBT : env.baselineTestOk = true)
    (hUps : env.upgrades = [(n1, v1), (n2, v2), (n3, v3)])
    (hFail : env.allInstallOk = false ∨ env.allTestOk = false)
    (hRe : env.allInstallOk = true → env.reinstallOk = true)
    (h12 : n1 ≠ n2) (h13 : n1 ≠ n3) (h23 : n2 ≠ n3)
    (hk1 : lookupDep pkg.deps n1 = some s1)
    (hk2 : lookupDep pkg.deps n2 = some s2)
    (hk3 : lookupDep pkg.deps n3 = some s3)
    (hv1 : v1 ≠ s1)
    (h1i : env.singleInstallOk n1 = true)
    (h1p : pkg.scriptsPrepare = true → env.prepareOk n1 = true)
    (h1t : env.depTestOk n1 = true)
    (h1l : env.singleInstallLock n1 = some L1)
    (h2 : env.singleInstallOk n2 = false ∨
      (pkg.scriptsPrepare = true ∧ env.prepareOk n2 = false) ∨
      env.depTestOk n2 = false)
    (h3i : env.singleInstallOk n3 = true)
    (h3p : pkg.scriptsPrepare = true → env.prepareOk n3 = true)
    (h3t : env.depTestOk n3 = true)
    (h3l : env.singleInstallLock n3 = some L3)
    (hFinL : env.finalInstallLock = none) :
    (doctor opts env w).2.world.packageJson =
      some (upgradePackageData (upgradePackageData pkg n1 v1) n3 v3) ∧
    (doctor opts env w).2.world.lockFile = some L3 ∧
    lookupDep (upgradePackageData (upgradePackageData pkg n1 v1) n3 v3).deps n1 =
      some v1 ∧
    lookupDep (upgradePackageData (upgradePackageData pkg n1 v1) n3 v3).deps n2 =
      some s2 ∧
    lookupDep (upgradePackageData (upgradePackageData pkg n1 v1) n3 v3).deps n3 =
      some v3 ∧
    ∃ preT, (doctor opts env w).2.trace = preT ++
      [(Event.writeManifest (upgradePackageData (upgradePackageData pkg n1 v1) n3 v3),
        ⟨some (upgradePackageData (upgradePackageData pkg n1 v1) n3 v3), some L3⟩),
       (Event.install .final env.finalInstallOk,
        ⟨some (upgradePackageData (upgradePackageData pkg n1 v1) n3 v3), some L3⟩)] := by
  have hlk1 : lookupDep (upgradePackageData (upgradePackageData pkg n1 v1) n3 v3).deps n1 =
      some v1 := by
    show lookupDep (upgradeDeps (upgradeDeps pkg.deps n1 v1) n3 v3) n1 = some v1
    rw [lookupDep_upgradeDeps_other _ _ _ _ h13, lookupDep_upgradeDeps_self, hk1]
    rfl
  have hlk2 : lookupDep (upgradePackageData (upgradePackageData pkg n1 v1) n3 v3).deps n2 =
      some s2 := by
    show lookupDep (upgradeDeps (upgradeDeps pkg.deps n1 v1) n3 v3) n2 = some s2
    rw [lookupDep_upgradeDeps_other _ _ _ _ h23,
      lookupDep_upgradeDeps_other _ _ _ _ (Ne.symm h12), hk2]
  have hlk3 : lookupDep (upgradePackageData (upgradePackageData pkg n1 v1) n3 v3).deps n3 =
      some v3 := by
    show lookupDep (upgradeDeps (upgradeDeps pkg.deps n1 v1) n3 v3) n3 = some v3
    rw [lookupDep_upgradeDeps_self, lookupDep_upgradeDeps_other _ _ _ _ (Ne.symm h13), hk3]
    rfl
  have hneq : upgradePackageData (upgradePackageData pkg n1 v1) n3 v3 ≠ pkg := by
    intro hEq
    apply hv1
    have hcongr := congrArg (fun p => lookupDep p.deps n1) hEq
    simp only [hlk1, hk1] at hcongr
    exact Option.some.inj hcongr
  have hloop : ∃ wj t3,
      bisectLoop opts pkg env env.upgrades pkg
        (lockContentOrEmpty (lockAfterBaseline env w))
        (if env.allInstallOk
         then installEff .reinstall true env.reinstallLock
           (rollbackRestore pkg (lockContentOrEmpty (lockAfterBaseline env w))
             (stCatchTestFail env w pkg))
         else rollbackRestore pkg (lockContentOrEmpty (lockAfterBaseline env w))
           (stCatchInstallFail env w pkg)) =
      (upgradePackageData (upgradePackageData pkg n1 v1) n3 v3, L3,
        { world := { packageJson := wj, lockFile := some L3 }, trace := t3 }) := by
    rw [hUps, bisectLoop_cons,
      bisectStep_success opts pkg env n1 v1 pkg _ _ h1i h1l h1p h1t]
    simp only []
    rw [bisectLoop_cons]
    by_cases hI2 : env.singleInstallOk n2 = true
    · by_cases hpf2 : pkg.scriptsPrepare = true ∧ env.prepareOk n2 = false
      · rw [bisectStep_prepare_fail opts pkg env n2 v2 _ _ _ hI2 hpf2.1 hpf2.2]
        simp only []
        rw [bisectLoop_single_success opts pkg env n3 v3 _ _ _ h3i h3l h3p h3t]
        exact ⟨_, _, rfl⟩
      · have hP2 : pkg.scriptsPrepare = true → env.prepareOk n2 = true := by
          intro hp
          by_cases hPr : env.prepareOk n2 = true
          · exact hPr
          · exact absurd ⟨hp, by revert hPr; cases env.prepareOk n2 <;> simp⟩ hpf2
        have hT2 : env.depTestOk n2 = false := by
          rcases h2 with hIf | hc | hT
          · rw [hI2] at hIf
            cases hIf
          · exact absurd hc hpf2
          · exact hT
        rw [bisectStep_test_fail opts pkg env n2 v2 _ _ _ hI2 hP2 hT2]
        simp only []
        rw [bisectLoop_single_success opts pkg env n3 v3 _ _ _ h3i h3l h3p h3t]
        exact ⟨_, _, rfl⟩
    · have hI2f : env.singleInstallOk n2 = false := by
        revert hI2
        cases env.singleInstallOk n2 <;> simp
      rw [bisectStep_install_fail opts pkg env n2 v2 _ _ _ hI2f]
      simp only []
      rw [bisectLoop_single_success opts pkg env n3 v3 _ _ _ h3i h3l h3p h3t]
      exact ⟨_, _, rfl⟩
  obtain ⟨wj, t3, hloopEq⟩ := hloop
  have hUpNe : env.upgrades ≠ [] := by
    rw [hUps]
    exact List.cons_ne_nil _ _
  rw [doctor_to_afterRollback opts env w pkg hLoad hBI hBT hUpNe hFail hRe]
  obtain ⟨hworld, htrace⟩ := doctorAfterRollback_ending opts pkg env
    (lockContentOrEmpty (lockAfterBaseline env w)) _ _ _ wj t3 hloopEq hneq hFinL
  refine ⟨?_, ?_, hlk1, hlk2, hlk3, ⟨t3, ?_⟩⟩
  · rw [hworld]
  · rw [hworld]
  · rw [htrace]

/-- Witness for claim C1 at the concrete three dependency session where
only beta fails. -/
theorem claim_C1_witness :
    (doctor optsC envC worldC).2.world.packageJson =
      some (upgradePackageData (upgradePackageData pkgC "alpha" "2.0.0") "gamma" "2.0.0") ∧
    (doctor optsC envC worldC).2.world.lockFile = some "lock-gamma" ∧
    lookupDep (upgradePackageData (upgradePackageData pkgC "alpha" "2.0.0")
      "gamma" "2.0.0").deps "alpha" = some "2.0.0" ∧
    lookupDep (upgradePackageData (upgradePackageData pkgC "alpha" "2.0.0")
      "gamma" "2.0.0").deps "beta" = some "1.0.0" ∧
    lookupDep (upgradePackageData (upgradePackageData pkgC "alpha" "2.0.0")
      "gamma" "2.0.0").deps "gamma" = some "2.0.0" ∧
    ∃ preT, (doctor optsC envC worldC).2.trace = preT ++
      [(Event.writeManifest
          (upgradePackageData (upgradePackageData pkgC "alpha" "2.0.0") "gamma" "2.0.0"),
        ⟨some (upgradePackageData (upgradePackageData pkgC "alpha" "2.0.0")
          "gamma" "2.0.0"), some "lock-gamma"⟩),
       (Event.install .final envC.finalInstallOk,
        ⟨some (upgradePackageData (upgradePackageData pkgC "alpha" "2.0.0")
          "gamma" "2.0.0"), some "lock-gamma"⟩)] :=
  claim_C1 optsC envC worldC pkgC "alpha" "2.0.0" "beta" "2.0.0" "gamma" "2.0.0"
    "1.0.0" "1.0.0" "1.0.0" "lock-alpha" "lock-gamma"
    rfl rfl rfl rfl (Or.inr rfl) (fun _ => rfl)
    (by decide) (by decide) (by decide) rfl rfl rfl (by decide)
    rfl (fun hp => absurd hp (by decide)) rfl rfl
    (Or.inl (by decide))
    rfl (fun hp => absurd hp (by decide)) rfl rfl rfl

end Ncu
